import Mathlib

/-!
Shallow embedding of the rustlet container core, translated from
src/rustlet/src/rustlet_impls.rs.

Modelling conventions:
* Bytes (Rust `Vec<u8>` / `&[u8]`) are `List Nat`, each entry a u8 value.
* The external event runtime is out of scope.  A `WriteHandle` is modelled by
  the trace of calls made on it: `write` events carrying the written bytes and
  `close` events, together with the per-connection callback-state slot that
  `flush` updates.  `wh.write` and `wh.close` never fail in the model (their
  failures come from the external runtime).
* `HttpServer::build_headers` / `HttpServer::write_headers` (the external
  header serializer) is an opaque parameter: a function from the keep-alive
  flag, the additional headers and the optional redirect to the serialized
  header block.  Its constant first argument `true` in the source is dropped.
* Locks (`Arc<Mutex<..>>`, `Arc<RwLock<..>>`) disappear: the embedding is
  sequential, and lock poisoning is tolerated by the source (`into_inner`),
  so lock acquisition never fails.
* Fallible operations return the state paired with `Except RError Unit`,
  mirroring `&mut self` receivers returning `Result<(), Error>`; operations
  whose only failure sources are external (time, socket writes, the header
  serializer) are modelled total.
-/

namespace Rustlet

/-- Bytes are modelled as lists of naturals, one per u8. -/
abbrev Bytes := List Nat

/-- ASCII/UTF-8 code points of a Lean string, used for the byte strings the
source produces with `format!` and string literals. -/
def strBytes (s : String) : Bytes := s.toList.map Char.toNat

/-- CR LF, the bytes 13 10. -/
def CRLF : Bytes := [13, 10]

/-- The terminal zero-length chunk, bytes of 0 CR LF CR LF. -/
def terminalChunk : Bytes := [48, 13, 10, 13, 10]

/-- One uppercase hexadecimal digit byte, as produced by the X format. -/
def hexDigitByte (d : Nat) : Nat := if d < 10 then 48 + d else 55 + d

/-- Uppercase hexadecimal digits of n, most significant first, empty for 0.
The first argument is fuel making the division recursion structural; n
itself is always enough. -/
def hexRepGo : Nat → Nat → Bytes
  | 0, _ => []
  | _ + 1, 0 => []
  | fuel + 1, n + 1 =>
      hexRepGo fuel ((n + 1) / 16) ++ [hexDigitByte ((n + 1) % 16)]

/-- Bytes of the uppercase hexadecimal rendering of n (the X format of Rust):
at least one digit, no leading zeros. -/
def hexUpper (n : Nat) : Bytes := if n = 0 then [48] else hexRepGo n n

/-- Vec::insert(i, a).  The source only calls it with i at most the length. -/
def vecInsert (i : Nat) (a : α) (l : List α) : List α := l.take i ++ a :: l.drop i

/-- The insertion loop of `RustletResponse::flush` with explicit fuel:
`for i in 0..msg.len() { buffer.insert(i, msg[i]) }`, starting at index i. -/
def insertFromGo (msg : Bytes) : Nat → Nat → Bytes → Bytes
  | 0, _, b => b
  | fuel + 1, i, b =>
      if i < msg.length then
        insertFromGo msg fuel (i + 1) (vecInsert i (msg.getD i 0) b)
      else b

/-- The insertion loop of `RustletResponse::flush` from index i on. -/
def insertFrom (msg : Bytes) (i : Nat) (b : Bytes) : Bytes :=
  insertFromGo msg (msg.length - i) i b

/-- An observable call on the `WriteHandle` of a connection. -/
inductive WhEvent where
  | write (data : Bytes)
  | close
deriving DecidableEq, Repr

/-- The callback-state values the core assigns (`nioruntime_http::State`). -/
inductive State where
  | headersChunked
  | headersClose
deriving DecidableEq, Repr

/-- The connection as the core sees it: the trace of write-handle calls plus
the callback-state slot (`wh.callback_state`). -/
structure Conn where
  events : List WhEvent
  callback_state : Option State
deriving DecidableEq, Repr

/-- A fresh connection with no traffic. -/
def Conn.empty : Conn := { events := [], callback_state := none }

/-- Models `wh.write(data)`. -/
def whWrite (data : Bytes) (c : Conn) : Conn :=
  { c with events := c.events ++ [WhEvent.write data] }

/-- Models `wh.close()`. -/
def whClose (c : Conn) : Conn :=
  { c with events := c.events ++ [WhEvent.close] }

/-- Models assignment to the callback-state slot. -/
def setCallbackState (s : State) (c : Conn) : Conn :=
  { c with callback_state := some s }

/-- The error kinds of `nioruntime_util::ErrorKind` that the core raises. -/
inductive RError where
  | orderingError (msg : String)
  | invalidRSPError (msg : String)
  | internalError (msg : String)
deriving DecidableEq, Repr

/-- The opaque HTTP-layer configuration.  The core only consumes the header
serializer, so the model keeps exactly that: `build_headers` maps the
keep-alive flag, the additional headers and the optional redirect to the
serialized status and header block. -/
structure HttpConfig where
  build_headers : Bool → List (String × String) → Option String → Bytes

/-- RustletResponse (rustlet_impls.rs lines 385-397).  The write handle is
threaded separately as a `Conn`; the shared interior mutability of the
source collapses to plain fields in this sequential embedding. -/
structure RustletResponse where
  config : HttpConfig
  headers_written : Bool
  additional_headers : List (String × String)
  redirect : Option String
  keep_alive : Bool
  chained : Bool
  is_async : Bool
  buffer : Bytes
  is_complete : Bool

/-- RustletResponse::new. -/
def RustletResponse.new (config : HttpConfig) (keep_alive chained : Bool) :
    RustletResponse :=
  { config := config
    headers_written := false
    additional_headers := []
    redirect := none
    keep_alive := keep_alive
    chained := chained
    is_async := false
    buffer := []
    is_complete := false }

/-- RustletResponse::set_cookie (lines 415-429). -/
def RustletResponse.set_cookie (r : RustletResponse) (name value other : String) :
    RustletResponse × Except RError Unit :=
  match r.headers_written with
  | true =>
      (r, Except.error (RError.orderingError
        "Headers already written. Cannot set a cookie"))
  | false =>
      ({ r with additional_headers := r.additional_headers ++
          [("Set-Cookie", name ++ "=" ++ value ++ "; " ++ other)] },
       Except.ok ())

/-- RustletResponse::set_redirect (lines 452-465). -/
def RustletResponse.set_redirect (r : RustletResponse) (value : String) :
    RustletResponse × Except RError Unit :=
  if r.headers_written then
    (r, Except.error (RError.orderingError
      "headers already written. Cannot set redirect"))
  else
    ({ r with redirect := some value }, Except.ok ())

/-- RustletResponse::add_header (lines 467-478). -/
def RustletResponse.add_header (r : RustletResponse) (name value : String) :
    RustletResponse × Except RError Unit :=
  if r.headers_written then
    (r, Except.error (RError.orderingError
      "headers already written. Cannot add a header"))
  else
    ({ r with additional_headers := r.additional_headers ++ [(name, value)] },
     Except.ok ())

/-- RustletResponse::set_content_type (lines 480-491). -/
def RustletResponse.set_content_type (r : RustletResponse) (ctype : String) :
    RustletResponse × Except RError Unit :=
  if r.headers_written then
    (r, Except.error (RError.orderingError
      "headers already written. Cannot set content-type"))
  else
    ({ r with additional_headers := r.additional_headers ++
        [("Content-Type", ctype)] },
     Except.ok ())

/-- RustletResponse::flush (lines 493-547), translated statement by statement.
The header block is built when headers were not yet written and the response
is not chained; for keep-alive the buffer is wrapped as one chunk by the
byte-wise insertion loop, the terminal chunk is appended when `is_complete`;
the headers are inserted at the front by the same loop; one `wh.write` of the
assembled buffer follows, the headers-written latch is set, the callback
state installed and the buffer cleared.  The source returns `Result`, but
every failure source (header serializer, socket write, locks) is external,
so the model is total. -/
def RustletResponse.flush (r : RustletResponse) (c : Conn) :
    RustletResponse × Conn :=
  let headers : Bytes :=
    if ¬r.headers_written ∧ ¬r.chained then
      r.config.build_headers r.keep_alive r.additional_headers r.redirect
    else []
  let buffer : Bytes :=
    if r.keep_alive then
      let buffer :=
        if r.buffer.length > 0 then
          insertFrom (hexUpper r.buffer.length ++ CRLF) 0 r.buffer ++ CRLF
        else r.buffer
      if r.is_complete then buffer ++ terminalChunk else buffer
    else r.buffer
  let data := insertFrom headers 0 buffer
  let c := whWrite data c
  let c := setCallbackState
    (if r.keep_alive then State.headersChunked else State.headersClose) c
  ({ r with headers_written := true, buffer := [] }, c)

/-- RustletResponse::write (lines 549-553): append to the buffer. -/
def RustletResponse.write (r : RustletResponse) (data : Bytes) : RustletResponse :=
  { r with buffer := r.buffer ++ data }

/-- RustletResponse::set_is_async (lines 555-558). -/
def RustletResponse.set_is_async (r : RustletResponse) (value : Bool) : RustletResponse :=
  { r with is_async := value }

/-- RustletResponse::complete (lines 566-582). -/
def RustletResponse.complete (r : RustletResponse) (c : Conn) :
    RustletResponse × Conn :=
  if r.chained ∨ r.is_async then
    if r.chained then r.flush c else (r, c)
  else
    let r := { r with is_complete := true }
    let (r, c) := r.flush c
    if ¬r.keep_alive then (r, whClose c) else (r, c)

/-- RustletResponse::async_complete (lines 560-564). -/
def RustletResponse.async_complete (r : RustletResponse) (c : Conn) :
    RustletResponse × Conn :=
  (r.set_is_async false).complete c

/-- The chunk encoding `flush` applies to a keep-alive buffer: nothing for an
empty buffer, otherwise hex length, CRLF, the bytes, CRLF. -/
def chunkEnc (d : Bytes) : Bytes :=
  if d = [] then [] else hexUpper d.length ++ CRLF ++ d ++ CRLF

/-- The bytes a single `flush` hands to `wh.write`, in concatenation form. -/
def flushData (r : RustletResponse) : Bytes :=
  (if ¬r.headers_written ∧ ¬r.chained then
      r.config.build_headers r.keep_alive r.additional_headers r.redirect
    else []) ++
  (if r.keep_alive then
      chunkEnc r.buffer ++ (if r.is_complete then terminalChunk else [])
    else r.buffer)

/-- Association-list lookup modelling `HashMap::get`: the key occurs at most
once in a map built by the operations below, and lookup takes the first
occurrence. -/
def aLookup [DecidableEq κ] (m : List (κ × β)) (k : κ) : Option β :=
  (m.find? (fun kv => kv.1 = k)).map (fun kv => kv.2)

/-- Association-list insert modelling `HashMap::insert`: overwrite the entry
when the key is present, append it otherwise. -/
def aInsert [DecidableEq κ] (m : List (κ × β)) (k : κ) (v : β) : List (κ × β) :=
  if m.any (fun kv => kv.1 = k) then
    m.map (fun kv => if kv.1 = k then (k, v) else kv)
  else m ++ [(k, v)]

/-- Association-list removal modelling `HashMap::remove`. -/
def aErase [DecidableEq κ] (m : List (κ × β)) (k : κ) : List (κ × β) :=
  m.filter (fun kv => kv.1 ≠ k)

/-- SessionData (rustlet_impls.rs lines 63-80).  `mod_time` is wall-clock
milliseconds; the data bag maps names to encoded byte blobs.  `SystemTime` is
out of scope, so every operation takes the current time as a parameter. -/
structure SessionData where
  mod_time : Nat
  data : List (String × Bytes)
deriving DecidableEq, Repr

/-- SessionData::new at wall-clock time now. -/
def SessionData.new (now : Nat) : SessionData :=
  { mod_time := now, data := [] }

/-- The process-wide session map, session id (u128) to SessionData. -/
abbrev SessionMap := List (Nat × SessionData)

/-- RustletRequest (lines 82-96).  Fields the claims do not touch (method,
version, config, the lazily cached maps) are omitted; the header map is
recomputed on each use, which is observationally equal to the lazy cache
because the headers are immutable.  Headers are modelled as UTF-8 strings:
`build_header_map` drops non-UTF-8 headers, and every claim about headers
concerns UTF-8 ones. -/
structure RustletRequest where
  uri : String
  query : String
  content : Bytes
  headers : List (String × String)
  keep_alive : Bool
  session_id : Nat

/-- RustletRequest::new: session_id starts at 0. -/
def RustletRequest.new (uri query : String) (content : Bytes)
    (headers : List (String × String)) (keep_alive : Bool) : RustletRequest :=
  { uri := uri, query := query, content := content, headers := headers
    keep_alive := keep_alive, session_id := 0 }

/-- RustletRequest::set_session_id (lines 126-130). -/
def RustletRequest.set_session_id (r : RustletRequest) (session_id : Nat) :
    RustletRequest :=
  { r with session_id := session_id }

/-- RustletRequest::build_header_map (lines 355-371): later duplicates of a
header name overwrite earlier ones (`HashMap::insert`). -/
def build_header_map (headers : List (String × String)) : List (String × String) :=
  headers.foldl (fun m kv => aInsert m kv.1 kv.2) []

/-- The split of `str::split(c)`: the pieces of the character list between
occurrences of the separator, keeping empty pieces, never an empty result
list. -/
def splitOnChar (sep : Char) : List Char → List (List Char)
  | [] => [[]]
  | c :: rest =>
      match splitOnChar sep rest with
      | [] => [[c]]
      | piece :: pieces =>
          if c = sep then [] :: piece :: pieces else (c :: piece) :: pieces

/-- The trim of `str::trim`: whitespace stripped from both ends. -/
def trimChars (s : List Char) : List Char :=
  ((s.dropWhile Char.isWhitespace).reverse.dropWhile Char.isWhitespace).reverse

/-- The cookie scan of RustletRequest::get_cookie (lines 239-260): split the
Cookie header on semicolons, trim each part, split it on equal signs, and
return the second piece of the first part whose first piece is the name. -/
def cookieScan (cookie_str name : String) : Option String :=
  (splitOnChar ';' cookie_str.toList).findSome? (fun cookie =>
    let cookie := trimChars cookie
    let parts := splitOnChar '=' cookie
    if parts.length ≥ 2 ∧ parts.getD 0 [] = name.toList then
      some (String.mk (parts.getD 1 []))
    else none)

/-- RustletRequest::get_cookie (lines 239-260): look the name up in the value
of the Cookie header, if any.  The source returns `Result` but never errors. -/
def RustletRequest.get_cookie (r : RustletRequest) (name : String) : Option String :=
  match aLookup (build_header_map r.headers) "Cookie" with
  | some cookie_str => cookieScan cookie_str name
  | none => none

/-- RustletRequest::get_session (lines 132-168), parametrized by the decoder
of the `Readable` instance.  Returns the result of the call together with the
session map after it (the map is behind a shared lock in the source).  When
the session exists its `mod_time` is refreshed and the entry decoded (a
decoder failure is the error the `?` on `Readable::read` propagates); when it
does not exist a fresh empty SessionData is inserted. -/
def RustletRequest.get_session (dec : Bytes → Option T) (r : RustletRequest)
    (name : String) (now : Nat) (m : SessionMap) :
    Except RError (Option T) × SessionMap :=
  match aLookup m r.session_id with
  | some sd =>
      let m := aInsert m r.session_id { sd with mod_time := now }
      match aLookup sd.data name with
      | some bytes =>
          match dec bytes with
          | some v => (Except.ok (some v), m)
          | none => (Except.error (RError.internalError "decode failed"), m)
      | none => (Except.ok none, m)
  | none => (Except.ok none, aInsert m r.session_id (SessionData.new now))

/-- RustletRequest::set_session (lines 170-208), parametrized by the encoder
of the `Writeable` instance (whose failures are the only error source, so the
model is total): store the encoded value under the name and refresh
`mod_time`, creating the SessionData when the id is absent. -/
def RustletRequest.set_session (enc : T → Bytes) (r : RustletRequest)
    (name : String) (value : T) (now : Nat) (m : SessionMap) : SessionMap :=
  match aLookup m r.session_id with
  | some sd =>
      aInsert m r.session_id
        { mod_time := now, data := aInsert sd.data name (enc value) }
  | none =>
      aInsert m r.session_id
        { mod_time := now, data := aInsert (SessionData.new now).data name (enc value) }

/-- RustletRequest::remove_session_entry (lines 210-230): drop the entry and
refresh `mod_time`; a missing session id is a no-op. -/
def RustletRequest.remove_session_entry (r : RustletRequest) (name : String)
    (now : Nat) (m : SessionMap) : SessionMap :=
  match aLookup m r.session_id with
  | some sd =>
      aInsert m r.session_id { mod_time := now, data := aErase sd.data name }
  | none => m

/-- RustletConfig (lines 611-627). -/
structure RustletConfig where
  session_timeout : Nat
  http_config : HttpConfig

/-- The housekeeper (lines 629-664): read the timeout from the configuration
(0 when none is set), and if positive remove every session whose age in
seconds exceeds it.  `now - mod_time` is u128 subtraction on two readings of
the same monotone wall clock; it is modelled as truncated Nat subtraction. -/
def housekeeper (config : Option RustletConfig) (now : Nat) (m : SessionMap) :
    SessionMap :=
  let session_timeout := match config with
    | some config => config.session_timeout
    | none => 0
  if session_timeout > 0 then
    let rem_list :=
      (m.filter (fun kv => (now - kv.2.mod_time) / 1000 > session_timeout)).map
        (fun kv => kv.1)
    rem_list.foldl (fun m id => aErase m id) m
  else m

/-- The handler registry `RUSTLETS.rustlets`.  A rustlet is modelled by the
list of byte strings it writes to its response, in order; handler names are
kept as raw bytes (`str::from_utf8` is injective on the valid names a
registration can introduce, so no decoding is modelled). -/
def Registry := Bytes → Option (List Bytes)

/-- Run a rustlet body: each of its writes appends to the response buffer. -/
def runRustlet (writes : List Bytes) (r : RustletResponse) : RustletResponse :=
  writes.foldl (fun r w => r.write w) r

/-- The outcome execute_rustlet hands back, beyond the connection trace:
either the request/response pair after a run, or the response the
unknown-handler branch builds, writes the message into and then abandons. -/
inductive ExecOut where
  | ran (request : RustletRequest) (response : RustletResponse)
  | notFound (dropped : RustletResponse)

/-- The session id execute_rustlet derives (lines 804-824): the value of the
rustletsessionid cookie when it parses as u128, the fresh random id
otherwise.  Rust u128 parsing accepts an optional leading plus sign, at
least one decimal digit, and rejects overflow. -/
def parseU128 (s : String) : Option Nat :=
  let cs := match s.toList with
    | '+' :: rest => rest
    | cs => cs
  if cs.length > 0 ∧ cs.all Char.isDigit then
    let n := cs.foldl (fun acc c => acc * 10 + (c.toNat - 48)) 0
    if n < 2 ^ 128 then some n else none
  else none

/-- The session id execute_rustlet settles on (lines 804-824): the cookie
value when it parses, the fresh random id otherwise. -/
def derivedSessionId (request : RustletRequest) (id : Nat) : Nat :=
  match request.get_cookie "rustletsessionid" with
  | some s =>
      match parseU128 s with
      | some v => v
      | none => id
  | none => id

/-- execute_rustlet (lines 766-855).  The random 128-bit id from
`rand::random` is a parameter.  The handler itself cannot fail in this model
(rustlet bodies are write lists), so the error-flush path of line 832 is not
reachable; the `?` on set_cookie is modelled by the match.  In the
unknown-handler branch the message is only buffered in a response that is
never flushed, and the terminal chunk or close is issued directly on the
write handle regardless of `chained`. -/
def execute_rustlet (reg : Registry) (config : HttpConfig) (rustlet_name : Bytes)
    (uri query : String) (content : Bytes) (headers : List (String × String))
    (keep_alive chained : Bool) (id : Nat) (c : Conn) :
    Except RError (ExecOut × Conn) :=
  match reg rustlet_name with
  | some writes =>
      let response := RustletResponse.new config keep_alive chained
      let request := RustletRequest.new uri query content headers keep_alive
      let rsessionid : Nat := derivedSessionId request id
      let cookieStep :=
        if rsessionid = id then
          response.set_cookie "rustletsessionid" (toString id) "path=/"
        else (response, Except.ok ())
      match cookieStep with
      | (_, Except.error e) => Except.error e
      | (response, Except.ok ()) =>
          let request := request.set_session_id rsessionid
          let response := runRustlet writes response
          let (response, c) := response.complete c
          Except.ok (ExecOut.ran request response, c)
  | none =>
      let response := RustletResponse.new config keep_alive chained
      let response := response.write
        (strBytes "Rustlet " ++ [39] ++ rustlet_name ++ [39] ++
          strBytes " does not exist.")
      let c := if keep_alive then whWrite (strBytes "0\r\n\r\n") c else whClose c
      Except.ok (ExecOut.notFound response, c)

/-- RSP files are limited to 10 MiB (line 35). -/
def MAX_CHUNK_SIZE : Nat := 1024 * 1024 * 10

/-- The escape scan of process_rsp (lines 972-977) with explicit fuel:
`for i in (start+2)..amt`, the first i with buf at i, i-1, i-2 equal to the
bytes of equals, at and less-than signs yields end i-2; otherwise end = amt. -/
def scanEqGo (buf : Bytes) (amt : Nat) : Nat → Nat → Nat
  | 0, _ => amt
  | fuel + 1, i =>
    if i < amt then
      if buf.getD i 0 = 61 ∧ buf.getD (i - 1) 0 = 64 ∧ buf.getD (i - 2) 0 = 60 then
        i - 2
      else scanEqGo buf amt fuel (i + 1)
    else amt

/-- The escape scan of process_rsp starting at index i. -/
def scanEq (buf : Bytes) (amt : Nat) (i : Nat) : Nat :=
  scanEqGo buf amt (amt - i) i

/-- The close-bracket scan of process_rsp (lines 1008-1031) with explicit
fuel: `for i in (end+3)..(amt-1)`, the first i whose byte is the greater-than
sign; hi is the exclusive bound amt-1. -/
def findGtGo (buf : Bytes) (hi : Nat) : Nat → Nat → Option Nat
  | 0, _ => none
  | fuel + 1, i =>
    if i < hi then
      if buf.getD i 0 = 62 then some i else findGtGo buf hi fuel (i + 1)
    else none

/-- The close-bracket scan of process_rsp starting at index i. -/
def findGt (buf : Bytes) (hi : Nat) (i : Nat) : Option Nat :=
  findGtGo buf hi (hi - i) i

/-- One static-segment emission of process_rsp (lines 979-1002).  In
keep-alive mode: chunk length line, the segment bytes, then either
CRLF 0 CRLF CRLF when the remaining file length fits in this segment (the
final segment) or the chunk-closing CRLF; the close call inside the
keep-alive arm of the source is dead code and is dropped.  In close mode the
raw bytes, followed by a close on the final segment. -/
def writeSegment (keep_alive : Bool) (buf : Bytes) (flen start endPos : Nat)
    (c : Conn) : Conn :=
  let wlen := endPos - start
  let seg := (buf.drop start).take wlen
  if keep_alive then
    let c := whWrite (hexUpper wlen ++ CRLF) c
    let c := whWrite seg c
    if flen ≤ endPos then whWrite (strBytes "\r\n0\r\n\r\n") c
    else whWrite CRLF c
  else
    let c := whWrite seg c
    if flen ≤ endPos then whClose c else c

/-- The inner loop of process_rsp (lines 970-1043) for a buffer holding the
whole file.  `fuel` bounds the iteration count (the loop has no structural
measure); process_rsp supplies more fuel than any terminating run consumes.
When no closing bracket is found the source raises the invalid-RSP error if
the segment before the escape was non-empty; with an empty segment it
rescans the same escape forever, writing empty chunks — that divergence has
no value to return and is modelled by a distinguished internal error. -/
def rspLoop (reg : Registry) (config : HttpConfig) (uri query : String)
    (content : Bytes) (headers : List (String × String)) (keep_alive : Bool)
    (buf : Bytes) (flen amt : Nat) :
    Nat → Nat → Conn → Except RError Conn
  | 0, _, _ => Except.error (RError.internalError "out of fuel")
  | fuel + 1, start, c =>
    let endPos := scanEq buf amt (start + 2)
    let c := writeSegment keep_alive buf flen start endPos c
    if endPos = amt then Except.ok c
    else
      match findGt buf (amt - 1) (endPos + 3) with
      | some i =>
          let rustlet_name := (buf.drop (endPos + 3)).take (i - (endPos + 3))
          match execute_rustlet reg config rustlet_name uri query content
              headers keep_alive true 0 c with
          | Except.ok (_, c) =>
              rspLoop reg config uri query content headers keep_alive buf flen amt
                fuel (i + 1) c
          | Except.error e => Except.error e
      | none =>
          if start < endPos then
            Except.error (RError.invalidRSPError
              "non-terminated escape sequence in RSP")
          else Except.error (RError.internalError
            "process_rsp diverges on an unterminated escape at segment start")

/-- process_rsp (lines 926-1053) for a file read in one gulp (files are at
most 10 MiB, the single bounded read of the source).  Oversized files are
rejected; otherwise the header block is written (`HttpServer::write_headers`,
modelled through the same opaque serializer), the callback state installed,
and the buffer interpreted by the inner loop.  The random ids of chained
executions do not influence the trace, so they are fixed to 0. -/
def process_rsp (reg : Registry) (config : HttpConfig) (uri query : String)
    (content : Bytes) (headers : List (String × String)) (keep_alive : Bool)
    (file : Bytes) (c : Conn) : Except RError Conn :=
  if file.length > MAX_CHUNK_SIZE then
    Except.error (RError.invalidRSPError "RSPs are limited to 10485760 bytes.")
  else
    let c := whWrite (config.build_headers keep_alive [] none) c
    let c := setCallbackState
      (if keep_alive then State.headersChunked else State.headersClose) c
    rspLoop reg config uri query content headers keep_alive file
      file.length file.length (file.length + 1) 0 c

/-- A byte string is escape-free when the three-byte escape opener occurs at
no position of it. -/
def escFree (s : Bytes) : Prop :=
  ∀ q < s.length,
    ¬(s.getD (q + 2) 0 = 61 ∧ s.getD (q + 1) 0 = 64 ∧ s.getD q 0 = 60)

instance (s : Bytes) : Decidable (escFree s) := by
  unfold escFree; infer_instance

/-- The escape sequence for a handler name: the bytes of the opener, the
name, and the closing bracket. -/
def escSeq (name : Bytes) : Bytes := 60 :: 64 :: 61 :: (name ++ [62])

/-- A template alternating static segments with escapes, ending in a final
static segment: render [(S0, n0, w0), (S1, n1, w1)] F is
S0 escSeq n0 S1 escSeq n1 F.  The writes are carried for the statements
about handler output. -/
def render : List (Bytes × Bytes × List Bytes) → Bytes → Bytes
  | [], final => final
  | (s, n, _) :: rest, final => s ++ escSeq n ++ render rest final

/-- The conditions claim C5 needs of one template segment: the static bytes
are non-empty (an empty segment would make process_rsp emit a zero-length
chunk mid-stream, which terminates a chunked body) and escape-free, the
handler name contains no closing bracket, and the handler is registered
with the given writes. -/
def segOK (reg : Registry) (x : Bytes × Bytes × List Bytes) : Prop :=
  x.1 ≠ [] ∧ escFree x.1 ∧ (∀ b ∈ x.2.1, b ≠ 62) ∧ reg x.2.1 = some x.2.2

instance (reg : Registry) (x : Bytes × Bytes × List Bytes) :
    Decidable (segOK reg x) := by
  unfold segOK; infer_instance

/-- The write events the template interpreter produces for a rendered
template, after the header event: for each segment, its chunk-length line,
its bytes, the chunk-closing CRLF and the one write of the chained
sub-response; for the final segment, its chunk-length line, its bytes and
CRLF followed by the terminal chunk. -/
def segEvents : List (Bytes × Bytes × List Bytes) → Bytes → List WhEvent
  | [], final =>
      [WhEvent.write (hexUpper final.length ++ CRLF), WhEvent.write final,
       WhEvent.write (strBytes "\r\n0\r\n\r\n")]
  | (s, _, w) :: rest, final =>
      [WhEvent.write (hexUpper s.length ++ CRLF), WhEvent.write s,
       WhEvent.write CRLF, WhEvent.write (chunkEnc w.flatten)] ++
        segEvents rest final

/-- The bytes of the write events of a trace (close events carry none). -/
def wireOf (events : List WhEvent) : Bytes :=
  (events.map (fun e => match e with
    | WhEvent.write d => d
    | WhEvent.close => [])).flatten

/-- The body stream of a served connection: everything written after the
header-block event. -/
def wireBody (c : Conn) : Bytes := wireOf (c.events.drop 1)

/-- Hexadecimal digit values accepted by the unchunker. -/
def hexDigitVal (b : Nat) : Option Nat :=
  if 48 ≤ b ∧ b ≤ 57 then some (b - 48)
  else if 65 ≤ b ∧ b ≤ 70 then some (b - 55)
  else if 97 ≤ b ∧ b ≤ 102 then some (b - 87)
  else none

/-- Chunk-length parser: at least one hex digit, then CR LF; returns the
value and the rest of the stream. -/
def readHexAux : Bytes → Nat → Nat → Option (Nat × Bytes)
  | [], _, _ => none
  | b :: rest, acc, ndigits =>
    match hexDigitVal b with
    | some d => readHexAux rest (acc * 16 + d) (ndigits + 1)
    | none =>
      if b = 13 then
        match rest with
        | 10 :: rest2 => if ndigits > 0 then some (acc, rest2) else none
        | _ => none
      else none

/-- Strict HTTP chunked-transfer decoder: a sequence of sized chunks closed
by the terminal zero chunk, after which the stream must end.  The fuel
bounds the chunk count; each chunk consumes at least three bytes, so a fuel
of the stream length always suffices. -/
def unchunk : Nat → Bytes → Option Bytes
  | 0, _ => none
  | fuel + 1, s =>
    match readHexAux s 0 0 with
    | none => none
    | some (n, rest) =>
        if n = 0 then (if rest = CRLF then some [] else none)
        else if rest.length < n + 2 then none
        else
          match rest.drop n with
          | 13 :: 10 :: rest3 =>
              (unchunk fuel rest3).map (fun tail => rest.take n ++ tail)
          | _ => none

/-- Projection: the additional headers of the response of a completed run. -/
def execAdditionalHeaders : Except RError (ExecOut × Conn) →
    Option (List (String × String))
  | Except.ok (ExecOut.ran _ response, _) => some response.additional_headers
  | _ => none

/-- Projection: the session id of the request of a completed run. -/
def execSessionId : Except RError (ExecOut × Conn) → Option Nat
  | Except.ok (ExecOut.ran request _, _) => some request.session_id
  | _ => none

/-- Projection: the connection trace execute_rustlet leaves behind. -/
def execEvents : Except RError (ExecOut × Conn) → Option (List WhEvent)
  | Except.ok (_, c) => some c.events
  | Except.error _ => none

/-- Projection: the buffer of the response the unknown-handler branch
abandons. -/
def execDroppedBuffer : Except RError (ExecOut × Conn) → Option Bytes
  | Except.ok (ExecOut.notFound response, _) => some response.buffer
  | _ => none

/-- Projection: the error of a process_rsp run, if any. -/
def rspError : Except RError Conn → Option RError
  | Except.error e => some e
  | _ => none

/-- Whether an event closes the write handle. -/
def isCloseEvent : WhEvent → Bool
  | WhEvent.close => true
  | _ => false

/-- Whether an event is a write whose bytes end in the terminal chunk (the
only way flush ever emits it). -/
def isTerminalWrite : WhEvent → Bool
  | WhEvent.write d => terminalChunk.isSuffixOf d
  | WhEvent.close => false

/-- An arbitrary concrete header serializer used by witnesses. -/
def sampleConfig : HttpConfig := ⟨fun _ _ _ => strBytes "HDR"⟩

/-- A header serializer producing nothing, used by counterexamples. -/
def emptyConfig : HttpConfig := ⟨fun _ _ _ => []⟩

/-- A concrete registry with the rustlets x (writing the byte of 1) and y
(writing the byte of 2). -/
def sampleRegistry : Registry := fun n =>
  if n = [120] then some [[49]]
  else if n = [121] then some [[50]]
  else none

/-- The expiry test of the housekeeper: the age of the session in seconds
exceeds the timeout. -/
def expired (session_timeout now : Nat) (kv : Nat × SessionData) : Bool :=
  (now - kv.2.mod_time) / 1000 > session_timeout

/-- The session timeout the housekeeper reads: 0 when no configuration has
been set. -/
def configTimeout : Option RustletConfig → Nat
  | some config => config.session_timeout
  | none => 0

/-! ### List helpers -/

theorem getD_drop (l : Bytes) (n i : Nat) :
    (l.drop n).getD i 0 = l.getD (n + i) 0 := by
  simp [List.getD]

theorem vecInsert_take (a : α) (b : List α) (i : Nat) (h : i ≤ b.length) :
    (vecInsert i a b).take (i + 1) = b.take i ++ [a] := by
  unfold vecInsert
  rw [List.take_append_eq_append_take]
  have hlen : (b.take i).length = i := by simp [List.length_take]; omega
  rw [List.take_of_length_le (by omega), hlen]
  simp

theorem vecInsert_drop (a : α) (b : List α) (i : Nat) (h : i ≤ b.length) :
    (vecInsert i a b).drop (i + 1) = b.drop i := by
  unfold vecInsert
  rw [List.drop_append_eq_append_drop]
  have hlen : (b.take i).length = i := by simp [List.length_take]; omega
  rw [List.drop_of_length_le (by omega), hlen]
  simp

theorem insertFromGo_eq (msg : Bytes) : ∀ fuel i b, msg.length - i ≤ fuel →
    i ≤ b.length →
    insertFromGo msg fuel i b = b.take i ++ msg.drop i ++ b.drop i := by
  intro fuel
  induction fuel with
  | zero =>
      intro i b hn hi
      unfold insertFromGo
      rw [List.drop_eq_nil_of_le (by omega)]
      simp [List.take_append_drop]
  | succ n ih =>
      intro i b hn hi
      unfold insertFromGo
      by_cases h : i < msg.length
      · rw [if_pos h]
        rw [ih (i + 1) _ (by omega) (by unfold vecInsert; simp; omega)]
        rw [vecInsert_take _ _ _ hi, vecInsert_drop _ _ _ hi]
        rw [List.drop_eq_getElem_cons h]
        rw [List.getD_eq_getElem _ _ h]
        simp
      · rw [if_neg h]
        rw [List.drop_eq_nil_of_le (by omega)]
        simp [List.take_append_drop]

theorem insertFrom_eq (msg : Bytes) (i : Nat) (b : Bytes) (hi : i ≤ b.length) :
    insertFrom msg i b = b.take i ++ msg.drop i ++ b.drop i :=
  insertFromGo_eq msg (msg.length - i) i b (Nat.le_refl _) hi

theorem insertFrom_zero (msg b : Bytes) : insertFrom msg 0 b = msg ++ b := by
  rw [insertFrom_eq msg 0 b (Nat.zero_le _)]
  simp

/-! ### Characterization of flush -/

theorem flush_eq (r : RustletResponse) (c : Conn) :
    r.flush c =
      ({ r with headers_written := true, buffer := [] },
       { c with
          events := c.events ++ [WhEvent.write (flushData r)]
          callback_state := some
            (if r.keep_alive then State.headersChunked else State.headersClose) }) := by
  unfold RustletResponse.flush flushData chunkEnc
  by_cases hb : r.buffer = []
  · simp [hb, whWrite, setCallbackState, insertFrom_zero]
  · have hlen : r.buffer.length > 0 := List.length_pos.mpr hb
    simp [hb, hlen, whWrite, setCallbackState, insertFrom_zero]
    by_cases hk : r.keep_alive <;>
      by_cases hc : r.is_complete <;>
        simp [hk, hc, insertFrom_zero]

/-! ### Claim C1: the headers-written latch guards the header mutators -/

/-- C1: on every RustletResponse whose headers are already written, each of
set_cookie, add_header, set_content_type and set_redirect returns the
ordering error of the source and leaves the response (in particular
additional_headers and redirect) unchanged; while headers are not written,
each succeeds and records the cookie, header, content type or redirect. -/
theorem claim_C1 (r : RustletResponse) (name value other ctype url : String) :
    r.set_cookie name value other =
      (if r.headers_written then
        (r, Except.error (RError.orderingError
          "Headers already written. Cannot set a cookie"))
      else
        ({ r with additional_headers := r.additional_headers ++
            [("Set-Cookie", name ++ "=" ++ value ++ "; " ++ other)] },
         Except.ok ())) ∧
    r.add_header name value =
      (if r.headers_written then
        (r, Except.error (RError.orderingError
          "headers already written. Cannot add a header"))
      else
        ({ r with additional_headers := r.additional_headers ++ [(name, value)] },
         Except.ok ())) ∧
    r.set_content_type ctype =
      (if r.headers_written then
        (r, Except.error (RError.orderingError
          "headers already written. Cannot set content-type"))
      else
        ({ r with additional_headers := r.additional_headers ++
            [("Content-Type", ctype)] },
         Except.ok ())) ∧
    r.set_redirect url =
      (if r.headers_written then
        (r, Except.error (RError.orderingError
          "headers already written. Cannot set redirect"))
      else
        ({ r with redirect := some url }, Except.ok ())) := by
  cases h : r.headers_written <;>
    simp [RustletResponse.set_cookie, RustletResponse.add_header,
      RustletResponse.set_content_type, RustletResponse.set_redirect, h]

/-! ### Claim C10: flush latches the headers and clears the buffer -/

/-- C10: after any flush the headers-written latch is set and the buffer is
empty while additional_headers, redirect, keep_alive, chained and is_async
are untouched; flush emits exactly one write of flushData, which for a
chained response carries no header block; and each subsequent header
mutator on the flushed response returns its ordering error. -/
theorem claim_C10 (r : RustletResponse) (c : Conn) (n v ct u cn cv co : String) :
    (r.flush c).1 = { r with headers_written := true, buffer := [] } ∧
    (r.flush c).2.events = c.events ++ [WhEvent.write (flushData r)] ∧
    (r.chained = true → flushData r =
      (if r.keep_alive then
        chunkEnc r.buffer ++ (if r.is_complete then terminalChunk else [])
      else r.buffer)) ∧
    ((r.flush c).1.add_header n v).2 = Except.error (RError.orderingError
      "headers already written. Cannot add a header") ∧
    ((r.flush c).1.set_content_type ct).2 = Except.error (RError.orderingError
      "headers already written. Cannot set content-type") ∧
    ((r.flush c).1.set_redirect u).2 = Except.error (RError.orderingError
      "headers already written. Cannot set redirect") ∧
    ((r.flush c).1.set_cookie cn cv co).2 = Except.error (RError.orderingError
      "Headers already written. Cannot set a cookie") := by
  rw [flush_eq]
  refine ⟨rfl, rfl, ?_, rfl, rfl, rfl, rfl⟩
  intro hch
  simp [flushData, hch]

/-- C10 witness: the flush theorem applied to a chained response, using the
implication that no header block is serialized for it. -/
theorem claim_C10_witness :
    ((RustletResponse.new sampleConfig true true).flush Conn.empty).1 =
      { RustletResponse.new sampleConfig true true with
          headers_written := true, buffer := [] } ∧
    flushData (RustletResponse.new sampleConfig true true) =
      (if (RustletResponse.new sampleConfig true true).keep_alive then
        chunkEnc (RustletResponse.new sampleConfig true true).buffer ++
          (if (RustletResponse.new sampleConfig true true).is_complete then
            terminalChunk else [])
      else (RustletResponse.new sampleConfig true true).buffer) :=
  ⟨(claim_C10 (RustletResponse.new sampleConfig true true) Conn.empty
      "a" "b" "c" "d" "e" "f" "g").1,
   (claim_C10 (RustletResponse.new sampleConfig true true) Conn.empty
      "a" "b" "c" "d" "e" "f" "g").2.2.1 rfl⟩

/-! ### Claim C2: complete is not idempotent, but one call closes or
terminates at most once -/

/-- C2 counterexample: on a non-chained, non-async keep-alive response,
calling complete twice emits the terminal chunk twice, against the claim
that at most one terminal chunk is emitted regardless of how many times
complete is called. -/
theorem claim_C2_cx :
    (((RustletResponse.new emptyConfig true false).complete Conn.empty).1.complete
        (((RustletResponse.new emptyConfig true false).complete Conn.empty).2)).2.events
      = [WhEvent.write terminalChunk, WhEvent.write terminalChunk] ∧
    ([WhEvent.write terminalChunk, WhEvent.write terminalChunk].countP
        isTerminalWrite) = 2 := by
  decide

/-- C2 amended: a single call to complete on a non-chained, non-async
response sets is_complete, flushes once and closes exactly when keep-alive
is off, so one call appends at most one close event and at most one write
carrying the terminal chunk; the source keeps no latch, so nothing prevents
a second call from emitting them again. -/
theorem claim_C2 (r : RustletResponse) (c : Conn)
    (hch : r.chained = false) (ha : r.is_async = false) :
    r.complete c =
      ({ r with is_complete := true, headers_written := true, buffer := [] },
       { c with
          events := c.events ++
            [WhEvent.write (flushData { r with is_complete := true })] ++
            (if r.keep_alive then [] else [WhEvent.close])
          callback_state := some
            (if r.keep_alive then State.headersChunked else State.headersClose) }) ∧
    ((r.complete c).2.events.drop c.events.length).countP isCloseEvent ≤ 1 ∧
    ((r.complete c).2.events.drop c.events.length).countP isTerminalWrite ≤ 1 := by
  have hcomp : r.complete c =
      ({ r with is_complete := true, headers_written := true, buffer := [] },
       { c with
          events := c.events ++
            [WhEvent.write (flushData { r with is_complete := true })] ++
            (if r.keep_alive then [] else [WhEvent.close])
          callback_state := some
            (if r.keep_alive then State.headersChunked else State.headersClose) }) := by
    unfold RustletResponse.complete
    cases hk : r.keep_alive <;>
      simp [hch, ha, hk, flush_eq, whClose]
  refine ⟨hcomp, ?_, ?_⟩ <;>
  · rw [hcomp]
    rw [List.append_assoc, List.drop_left]
    cases hk : r.keep_alive <;>
      simp [hk, List.countP_cons, List.countP_nil, isCloseEvent, isTerminalWrite] <;>
      split <;> simp

/-- C2 witness: the amended theorem applied to a fresh keep-alive response
on a fresh connection. -/
theorem claim_C2_witness :
    (((RustletResponse.new sampleConfig true false).complete Conn.empty).2.events.drop
        Conn.empty.events.length).countP isCloseEvent ≤ 1 ∧
    (((RustletResponse.new sampleConfig true false).complete Conn.empty).2.events.drop
        Conn.empty.events.length).countP isTerminalWrite ≤ 1 :=
  ⟨(claim_C2 (RustletResponse.new sampleConfig true false) Conn.empty rfl rfl).2.1,
   (claim_C2 (RustletResponse.new sampleConfig true false) Conn.empty rfl rfl).2.2⟩

/-! ### Claim C3: chained responses never terminate the stream, but the
unknown-handler branch of execute_rustlet does even when chained -/

/-- C3 counterexample: execute_rustlet invoked with chained = true on an
unregistered name and keep-alive emits exactly the terminal zero-length
chunk on the write handle, against the claim that no operation of a chained
invocation emits it. -/
theorem claim_C3_cx :
    execEvents (execute_rustlet (fun _ => none) emptyConfig (strBytes "foo")
        "" "" [] [] true true 0 Conn.empty)
      = some [WhEvent.write (strBytes "0\r\n\r\n")] ∧
    strBytes "0\r\n\r\n" = terminalChunk := by
  decide

/-- C3 amended: the operations of a chained RustletResponse itself (write,
flush, complete, async_complete) never close the write handle and never
append the terminal chunk: write only grows the buffer, flush emits exactly
one write event carrying the buffered bytes as one chunk (keep-alive) or raw
(close mode) with is_complete still false, and complete and async_complete
reduce to flush.  The unknown-handler branch of execute_rustlet, however,
writes the terminal chunk or closes even when chained (see the
counterexample). -/
theorem claim_C3 (r : RustletResponse) (c : Conn) (d : Bytes)
    (hch : r.chained = true) (hic : r.is_complete = false) :
    ((r.write d).chained = true ∧ (r.write d).is_complete = false ∧
      (r.write d).buffer = r.buffer ++ d) ∧
    ((r.flush c).1.chained = true ∧ (r.flush c).1.is_complete = false ∧
      (r.flush c).2.events = c.events ++
        [WhEvent.write (if r.keep_alive then chunkEnc r.buffer else r.buffer)] ∧
      (∀ e ∈ (r.flush c).2.events.drop c.events.length, e ≠ WhEvent.close)) ∧
    r.complete c = r.flush c ∧
    r.async_complete c = RustletResponse.flush { r with is_async := false } c := by
  refine ⟨⟨?_, ?_, ?_⟩, ⟨?_, ?_, ?_, ?_⟩, ?_, ?_⟩
  · simp [RustletResponse.write, hch]
  · simp [RustletResponse.write, hic]
  · simp [RustletResponse.write]
  · rw [flush_eq]; simp [hch]
  · rw [flush_eq]; simp [hic]
  · rw [flush_eq]
    simp [flushData, hch, hic]
  · rw [flush_eq]
    simp [List.drop_left]
  · unfold RustletResponse.complete
    simp [hch]
  · unfold RustletResponse.async_complete RustletResponse.set_is_async
      RustletResponse.complete
    simp [hch]

/-- C3 witness: the amended theorem applied to a chained keep-alive response
holding one buffered byte. -/
theorem claim_C3_witness :
    (((RustletResponse.new sampleConfig true true).write [65]).complete Conn.empty
      = ((RustletResponse.new sampleConfig true true).write [65]).flush Conn.empty) ∧
    ((((RustletResponse.new sampleConfig true true).write [65]).flush Conn.empty).2.events
      = Conn.empty.events ++
        [WhEvent.write (if ((RustletResponse.new sampleConfig true true).write [65]).keep_alive
          then chunkEnc ((RustletResponse.new sampleConfig true true).write [65]).buffer
          else ((RustletResponse.new sampleConfig true true).write [65]).buffer)]) :=
  ⟨(claim_C3 ((RustletResponse.new sampleConfig true true).write [65]) Conn.empty []
      rfl rfl).2.2.1,
   (claim_C3 ((RustletResponse.new sampleConfig true true).write [65]) Conn.empty []
      rfl rfl).2.1.2.2.1⟩

/-! ### Claim C4: the shape of a keep-alive flush -/

/-- C4: for a non-chained keep-alive response, flush hands the write handle
exactly one write consisting of the serialized header block when headers
were not yet written, then — when the buffer is non-empty — exactly one
chunk made of the buffer length in uppercase hexadecimal, CRLF, the
buffered bytes and CRLF, and finally the terminal chunk when is_complete
is set; an empty buffer on the first flush yields the header block alone. -/
theorem claim_C4 (r : RustletResponse) (c : Conn)
    (hch : r.chained = false) (hk : r.keep_alive = true) :
    (r.flush c).2.events = c.events ++
      [WhEvent.write (
        (if r.headers_written = false then
          r.config.build_headers true r.additional_headers r.redirect
        else []) ++
        ((if r.buffer = [] then [] else
          hexUpper r.buffer.length ++ CRLF ++ r.buffer ++ CRLF) ++
        (if r.is_complete then terminalChunk else [])))] := by
  rw [flush_eq]
  simp only [flushData, chunkEnc, hch, hk]
  cases hw : r.headers_written <;> simp

/-- C4 witness: the theorem applied to a fresh keep-alive response holding
the bytes of Hello. -/
theorem claim_C4_witness :
    ((((RustletResponse.new sampleConfig true false).write (strBytes "Hello")).flush
        Conn.empty).2.events = Conn.empty.events ++
      [WhEvent.write (
        (if ((RustletResponse.new sampleConfig true false).write
              (strBytes "Hello")).headers_written = false then
          ((RustletResponse.new sampleConfig true false).write
              (strBytes "Hello")).config.build_headers true
            ((RustletResponse.new sampleConfig true false).write
              (strBytes "Hello")).additional_headers
            ((RustletResponse.new sampleConfig true false).write
              (strBytes "Hello")).redirect
        else []) ++
        ((if ((RustletResponse.new sampleConfig true false).write
              (strBytes "Hello")).buffer = [] then [] else
          hexUpper ((RustletResponse.new sampleConfig true false).write
              (strBytes "Hello")).buffer.length ++ CRLF ++
            ((RustletResponse.new sampleConfig true false).write
              (strBytes "Hello")).buffer ++ CRLF) ++
        (if ((RustletResponse.new sampleConfig true false).write
              (strBytes "Hello")).is_complete then terminalChunk else [])))]) :=
  claim_C4 ((RustletResponse.new sampleConfig true false).write (strBytes "Hello"))
    Conn.empty rfl rfl

/-! ### Association-list lemmas for the session store -/

theorem aLookup_cons [DecidableEq κ] (kv : κ × β) (m : List (κ × β)) (k : κ) :
    aLookup (kv :: m) k = if kv.1 = k then some kv.2 else aLookup m k := by
  by_cases h : kv.1 = k
  · rw [if_pos h]
    unfold aLookup
    rw [List.find?_cons_of_pos _ (by simp [h])]
    rfl
  · rw [if_neg h]
    unfold aLookup
    rw [List.find?_cons_of_neg _ (by simp [h])]

theorem aLookup_replaceAll [DecidableEq κ] (m : List (κ × β)) (k k' : κ) (v : β)
    (h : ¬k' = k) :
    aLookup (m.map (fun kv => if kv.1 = k then (k, v) else kv)) k' =
      aLookup m k' := by
  induction m with
  | nil => rfl
  | cons kv rest ih =>
      simp only [List.map_cons]
      by_cases hk : kv.1 = k
      · rw [if_pos hk, aLookup_cons, aLookup_cons]
        have h1 : ¬((k, v).1 = k') := fun hh => h hh.symm
        have h2 : ¬(kv.1 = k') := fun hh => h (hk ▸ hh).symm
        rw [if_neg h1, if_neg h2]
        exact ih
      · rw [if_neg hk, aLookup_cons, aLookup_cons]
        by_cases h2 : kv.1 = k' <;> simp [h2, ih]

theorem aLookup_replaceAll_self [DecidableEq κ] (m : List (κ × β)) (k : κ) (v : β)
    (h : m.any (fun kv => kv.1 = k)) :
    aLookup (m.map (fun kv => if kv.1 = k then (k, v) else kv)) k = some v := by
  induction m with
  | nil => simp at h
  | cons kv rest ih =>
      simp only [List.map_cons]
      by_cases hk : kv.1 = k
      · rw [if_pos hk, aLookup_cons, if_pos rfl]
      · rw [if_neg hk, aLookup_cons, if_neg hk]
        apply ih
        simp only [List.any_cons, Bool.or_eq_true, decide_eq_true_eq] at h
        rcases h with h | h
        · exact absurd h hk
        · exact h

theorem aLookup_append_single [DecidableEq κ] (m : List (κ × β)) (k k' : κ)
    (v : β) (hany : ¬(m.any (fun kv => kv.1 = k) = true)) :
    aLookup (m ++ [(k, v)]) k' = if k' = k then some v else aLookup m k' := by
  induction m with
  | nil =>
      rw [List.nil_append, aLookup_cons]
      by_cases h : k' = k
      · simp [h]
      · have h' : ¬((k, v).1 = k') := fun hh => h hh.symm
        rw [if_neg h', if_neg h]
  | cons kv rest ih =>
      simp only [List.any_cons, Bool.or_eq_true, decide_eq_true_eq] at hany
      push_neg at hany
      rw [List.cons_append, aLookup_cons, aLookup_cons]
      rw [ih (by simpa using hany.2)]
      by_cases h2 : kv.1 = k'
      · by_cases h : k' = k
        · exact absurd (h ▸ h2) hany.1
        · simp [h2, h]
      · simp [h2]

theorem aLookup_aInsert [DecidableEq κ] (m : List (κ × β)) (k k' : κ) (v : β) :
    aLookup (aInsert m k v) k' = if k' = k then some v else aLookup m k' := by
  unfold aInsert
  by_cases hany : m.any (fun kv => kv.1 = k)
  · rw [if_pos hany]
    by_cases h : k' = k
    · subst h
      rw [if_pos rfl]
      exact aLookup_replaceAll_self m k' v hany
    · rw [if_neg h]
      exact aLookup_replaceAll m k k' v h
  · rw [if_neg hany]
    exact aLookup_append_single m k k' v hany

theorem aLookup_aErase_self [DecidableEq κ] (m : List (κ × β)) (k : κ) :
    aLookup (aErase m k) k = none := by
  induction m with
  | nil => rfl
  | cons kv rest ih =>
      unfold aErase
      by_cases h : kv.1 = k
      · simp only [List.filter_cons]
        rw [if_neg (by simp [h])]
        exact ih
      · simp only [List.filter_cons]
        rw [if_pos (by simp [h])]
        rw [aLookup_cons, if_neg h]
        exact ih

/-! ### Claim C8: session round-trip -/

/-- C8: with a decoder inverting the encoder, set_session followed by
get_session on the same session id returns the stored value, and
remove_session_entry followed by get_session returns none. -/
theorem claim_C8 {T : Type} (enc : T → Bytes) (dec : Bytes → Option T)
    (req : RustletRequest) (name : String) (v : T) (now now2 : Nat)
    (m : SessionMap) (h : dec (enc v) = some v) :
    (RustletRequest.get_session dec req name now2
        (RustletRequest.set_session enc req name v now m)).1 =
      Except.ok (some v) ∧
    (RustletRequest.get_session dec req name now2
        (req.remove_session_entry name now m)).1 = Except.ok none := by
  constructor
  · unfold RustletRequest.set_session RustletRequest.get_session
    cases hm : aLookup m req.session_id with
    | some sd =>
        simp only [aLookup_aInsert, if_pos rfl]
        simp [aLookup_aInsert, h]
    | none =>
        simp only [aLookup_aInsert, if_pos rfl]
        simp [aLookup_aInsert, h]
  · unfold RustletRequest.remove_session_entry RustletRequest.get_session
    cases hm : aLookup m req.session_id with
    | some sd =>
        simp only [aLookup_aInsert, if_pos rfl]
        simp [aLookup_aErase_self]
    | none =>
        rw [hm]

/-- C8 witness: the round-trip theorem applied to Nat values encoded as a
singleton byte, on an empty session map. -/
theorem claim_C8_witness :
    (RustletRequest.get_session List.head? (RustletRequest.new "" "" [] [] true)
        "k" 1 (RustletRequest.set_session (fun n => [n])
          (RustletRequest.new "" "" [] [] true) "k" 5 0 [])).1 =
      Except.ok (some 5) ∧
    (RustletRequest.get_session List.head? (RustletRequest.new "" "" [] [] true)
        "k" 1 ((RustletRequest.new "" "" [] [] true).remove_session_entry
          "k" 0 [])).1 = Except.ok none :=
  claim_C8 (fun n => [n]) List.head? (RustletRequest.new "" "" [] [] true)
    "k" 5 0 1 [] rfl

/-! ### Claim C9: the housekeeper sweep -/

theorem foldl_aErase_eq_filter [DecidableEq κ] (ks : List κ) (m : List (κ × β)) :
    ks.foldl (fun m k => aErase m k) m =
      m.filter (fun kv => decide (kv.1 ∉ ks)) := by
  induction ks generalizing m with
  | nil => simp
  | cons k ks ih =>
      simp only [List.foldl_cons]
      rw [ih]
      unfold aErase
      rw [List.filter_filter]
      apply List.filter_congr
      intro kv _
      by_cases h1 : kv.1 = k <;> by_cases h2 : kv.1 ∈ ks <;>
        simp [h1, h2]

/-- C9: a housekeeper run with a positive configured timeout keeps exactly
the sessions that are not expired, removing the rest; with timeout 0 or no
configuration it leaves the session map unchanged.  The key-uniqueness
hypothesis states what holds of any map built by HashMap operations. -/
theorem claim_C9 (config : Option RustletConfig) (now : Nat) (m : SessionMap)
    (hnd : (m.map Prod.fst).Nodup) :
    housekeeper config now m =
      if configTimeout config > 0 then
        m.filter (fun kv => !expired (configTimeout config) now kv)
      else m := by
  unfold housekeeper
  have hct : (match config with
      | some config => config.session_timeout
      | none => 0) = configTimeout config := by
    cases config <;> rfl
  rw [hct]
  by_cases hpos : configTimeout config > 0
  · rw [if_pos hpos, if_pos hpos]
    rw [foldl_aErase_eq_filter]
    apply List.filter_congr
    intro kv hkv
    by_cases hexp : expired (configTimeout config) now kv
    · have hin : kv.1 ∈ (m.filter (fun kv =>
          decide ((now - kv.2.mod_time) / 1000 > configTimeout config))).map
            (fun kv => kv.1) :=
        List.mem_map.mpr ⟨kv,
          List.mem_filter.mpr ⟨hkv, by simpa [expired] using hexp⟩, rfl⟩
      simp [hin, hexp]
    · have hnin : kv.1 ∉ (m.filter (fun kv =>
          decide ((now - kv.2.mod_time) / 1000 > configTimeout config))).map
            (fun kv => kv.1) := by
        intro hin
        obtain ⟨kv', hkv', heq⟩ := List.mem_map.mp hin
        obtain ⟨hkvm, hd⟩ := List.mem_filter.mp hkv'
        have heqkv := List.inj_on_of_nodup_map hnd hkvm hkv heq
        subst heqkv
        exact hexp (by simpa [expired] using hd)
      simp [hnin, hexp]
  · rw [if_neg hpos, if_neg hpos]

/-- C9 witness: the housekeeper theorem applied to a two-session map, one
session stale, with a one-second timeout. -/
theorem claim_C9_witness :
    housekeeper (some ⟨1, sampleConfig⟩) 10000
        [(7, ⟨0, []⟩), (8, ⟨9500, []⟩)] =
      if configTimeout (some ⟨1, sampleConfig⟩) > 0 then
        [(7, ⟨0, []⟩), (8, ⟨9500, []⟩)].filter
          (fun kv => !expired (configTimeout (some ⟨1, sampleConfig⟩)) 10000 kv)
      else [(7, ⟨0, []⟩), (8, ⟨9500, []⟩)] :=
  claim_C9 (some ⟨1, sampleConfig⟩) 10000 [(7, ⟨0, []⟩), (8, ⟨9500, []⟩)]
    (by decide)

/-! ### Facts about rustlet runs -/

theorem runRustlet_eq (writes : List Bytes) (r : RustletResponse) :
    runRustlet writes r = { r with buffer := r.buffer ++ writes.flatten } := by
  induction writes generalizing r with
  | nil => simp [runRustlet]
  | cons w ws ih =>
      show runRustlet ws (r.write w) = _
      rw [ih]
      simp [RustletResponse.write]

theorem complete_additional_headers (r : RustletResponse) (c : Conn) :
    ((r.complete c).1).additional_headers = r.additional_headers := by
  unfold RustletResponse.complete
  by_cases hch : r.chained
  · simp [hch, flush_eq]
  · by_cases ha : r.is_async
    · simp [hch, ha]
    · by_cases hk : r.keep_alive <;> simp [hch, ha, hk, flush_eq]

theorem complete_session_untouched (r : RustletResponse) (c : Conn) :
    ((r.complete c).1).chained = r.chained ∧
    ((r.complete c).1).keep_alive = r.keep_alive := by
  unfold RustletResponse.complete
  by_cases hch : r.chained
  · simp [hch, flush_eq]
  · by_cases ha : r.is_async
    · simp [hch, ha]
    · by_cases hk : r.keep_alive <;> simp [hch, ha, hk, flush_eq]

/-! ### Claim C6: the unknown-handler branch -/

/-- C6 counterexample: on a matched route whose handler name foo is not
registered, with keep-alive on, the bytes delivered on the write handle are
exactly the terminal chunk — not the claimed message (the source buffers a
message reading Rustlet rather than Handler and never flushes it). -/
theorem claim_C6_cx :
    execEvents (execute_rustlet (fun _ => none) emptyConfig (strBytes "foo")
        "" "" [] [] true false 0 Conn.empty)
      = some [WhEvent.write (strBytes "0\r\n\r\n")] ∧
    strBytes "0\r\n\r\n" ≠
      strBytes "Handler " ++ [39] ++ strBytes "foo" ++ [39] ++
        strBytes " does not exist." := by
  decide

/-- C6 amended: when the handler name is absent from the registry,
execute_rustlet buffers the message Rustlet (name) does not exist. in a
fresh response that is never flushed, so the only bytes delivered are the
terminal chunk when keep-alive is on, and nothing (the write handle is
closed) otherwise. -/
theorem claim_C6 (reg : Registry) (config : HttpConfig) (name : Bytes)
    (uri query : String) (content : Bytes) (headers : List (String × String))
    (keep_alive chained : Bool) (id : Nat) (c : Conn) (h : reg name = none) :
    execDroppedBuffer (execute_rustlet reg config name uri query content headers
        keep_alive chained id c) =
      some (strBytes "Rustlet " ++ [39] ++ name ++ [39] ++
        strBytes " does not exist.") ∧
    execEvents (execute_rustlet reg config name uri query content headers
        keep_alive chained id c) =
      some (c.events ++
        (if keep_alive then [WhEvent.write (strBytes "0\r\n\r\n")]
         else [WhEvent.close])) := by
  unfold execute_rustlet
  rw [h]
  cases keep_alive <;>
    simp [execDroppedBuffer, execEvents, whWrite, whClose,
      RustletResponse.write, RustletResponse.new]

/-- C6 witness: the amended theorem applied to the sample registry, which
has no rustlet named foo. -/
theorem claim_C6_witness :
    execDroppedBuffer (execute_rustlet sampleRegistry sampleConfig
        (strBytes "foo") "" "" [] [] true false 0 Conn.empty) =
      some (strBytes "Rustlet " ++ [39] ++ strBytes "foo" ++ [39] ++
        strBytes " does not exist.") ∧
    execEvents (execute_rustlet sampleRegistry sampleConfig
        (strBytes "foo") "" "" [] [] true false 0 Conn.empty) =
      some (Conn.empty.events ++
        (if true then [WhEvent.write (strBytes "0\r\n\r\n")]
         else [WhEvent.close])) :=
  claim_C6 sampleRegistry sampleConfig (strBytes "foo") "" "" [] [] true false 0
    Conn.empty (by decide)

/-! ### Claim C7: session cookie binding -/

/-- C7 counterexample: when the request carries rustletsessionid=7, which
parses as a u128, but the freshly generated random id happens to be 7 as
well, the source still emits a Set-Cookie header, against the claim that no
Set-Cookie is added whenever the cookie parses. -/
theorem claim_C7_cx :
    execAdditionalHeaders (execute_rustlet sampleRegistry emptyConfig [120]
        "" "" [] [("Cookie", "rustletsessionid=7")] true false 7 Conn.empty)
      = some [("Set-Cookie", "rustletsessionid=7; path=/")] ∧
    (RustletRequest.new "" "" [] [("Cookie", "rustletsessionid=7")]
        true).get_cookie "rustletsessionid" = some "7" ∧
    parseU128 "7" = some 7 := by
  decide

/-- C7 amended: on a registered handler, when the derived session id (cookie
value if it parses, the random id otherwise) differs from the random id —
that is, the cookie parsed and did not collide with the fresh id — the
request is bound to the cookie value and no Set-Cookie is emitted; when the
derived id equals the random id (no cookie, unparseable cookie, or the
2^-128 collision), the request is bound to the random id and
Set-Cookie rustletsessionid=(id); path=/ is the one additional header. -/
theorem claim_C7 (reg : Registry) (config : HttpConfig) (name : Bytes)
    (uri query : String) (content : Bytes) (headers : List (String × String))
    (keep_alive chained : Bool) (id : Nat) (c : Conn) (writes : List Bytes)
    (h : reg name = some writes) :
    (derivedSessionId (RustletRequest.new uri query content headers keep_alive)
        id ≠ id →
      execSessionId (execute_rustlet reg config name uri query content headers
          keep_alive chained id c) =
        some (derivedSessionId
          (RustletRequest.new uri query content headers keep_alive) id) ∧
      execAdditionalHeaders (execute_rustlet reg config name uri query content
          headers keep_alive chained id c) = some []) ∧
    (derivedSessionId (RustletRequest.new uri query content headers keep_alive)
        id = id →
      execSessionId (execute_rustlet reg config name uri query content headers
          keep_alive chained id c) = some id ∧
      execAdditionalHeaders (execute_rustlet reg config name uri query content
          headers keep_alive chained id c) =
        some [("Set-Cookie",
          "rustletsessionid" ++ "=" ++ toString id ++ "; " ++ "path=/")]) := by
  constructor
  · intro hne
    unfold execute_rustlet
    rw [h]
    simp only [if_neg hne]
    rcases hcc : (runRustlet writes
        (RustletResponse.new config keep_alive chained)).complete c with ⟨r', c'⟩
    simp only [hcc]
    have hah : r'.additional_headers = [] := by
      have h1 := complete_additional_headers
        (runRustlet writes (RustletResponse.new config keep_alive chained)) c
      rw [hcc] at h1
      simpa [runRustlet_eq, RustletResponse.new] using h1
    simp [execSessionId, execAdditionalHeaders, RustletRequest.set_session_id,
      RustletRequest.new, hah]
  · intro heq
    unfold execute_rustlet
    rw [h]
    simp only [if_pos heq, RustletResponse.set_cookie]
    rcases hst : (RustletResponse.new config keep_alive chained).headers_written
      with _ | _
    case false =>
      simp only [RustletResponse.new]
      rcases hcc : (runRustlet writes
          { RustletResponse.new config keep_alive chained with
            additional_headers := [] ++
              [("Set-Cookie",
                "rustletsessionid" ++ "=" ++ toString id ++ "; " ++ "path=/")] }).complete
          c with ⟨r', c'⟩
      simp only [RustletResponse.new] at hcc
      simp only [hcc]
      have h1 := complete_additional_headers
        (runRustlet writes
          { RustletResponse.new config keep_alive chained with
            additional_headers := [] ++
              [("Set-Cookie",
                "rustletsessionid" ++ "=" ++ toString id ++ "; " ++ "path=/")] }) c
      simp only [RustletResponse.new] at h1
      rw [hcc] at h1
      have hah : r'.additional_headers =
          [("Set-Cookie",
            "rustletsessionid" ++ "=" ++ toString id ++ "; " ++ "path=/")] := by
        simpa [runRustlet_eq] using h1
      have heq' : derivedSessionId
          { uri := uri, query := query, content := content, headers := headers,
            keep_alive := keep_alive, session_id := 0 } id = id := heq
      simp [execSessionId, execAdditionalHeaders, RustletRequest.set_session_id,
        RustletRequest.new, hah, heq']
    case true =>
      exact absurd hst (by simp [RustletResponse.new])

/-- C7 witness: the amended theorem applied to a request whose cookie binds
session id 7 while the random id is 9. -/
theorem claim_C7_witness :
    execSessionId (execute_rustlet sampleRegistry sampleConfig [120] "" "" []
        [("Cookie", "rustletsessionid=7")] true false 9 Conn.empty) =
      some (derivedSessionId (RustletRequest.new "" "" []
        [("Cookie", "rustletsessionid=7")] true) 9) ∧
    execAdditionalHeaders (execute_rustlet sampleRegistry sampleConfig [120]
        "" "" [] [("Cookie", "rustletsessionid=7")] true false 9 Conn.empty) =
      some [] :=
  (claim_C7 sampleRegistry sampleConfig [120] "" "" []
    [("Cookie", "rustletsessionid=7")] true false 9 Conn.empty [[49]] rfl).1
    (by decide)

/-! ### The escape and close-bracket scans of process_rsp -/

theorem scanEqGo_found (buf : Bytes) (amt j : Nat) (hj : j < amt)
    (hcond : buf.getD j 0 = 61 ∧ buf.getD (j - 1) 0 = 64 ∧
      buf.getD (j - 2) 0 = 60) :
    ∀ fuel i, amt - i ≤ fuel → i ≤ j →
    (∀ i', i ≤ i' → i' < j →
      ¬(buf.getD i' 0 = 61 ∧ buf.getD (i' - 1) 0 = 64 ∧
        buf.getD (i' - 2) 0 = 60)) →
    scanEqGo buf amt fuel i = j - 2 := by
  intro fuel
  induction fuel with
  | zero => intro i hf hij hmin; omega
  | succ f ih =>
      intro i hf hij hmin
      unfold scanEqGo
      rw [if_pos (by omega)]
      by_cases hc : buf.getD i 0 = 61 ∧ buf.getD (i - 1) 0 = 64 ∧
          buf.getD (i - 2) 0 = 60
      · rw [if_pos hc]
        rcases Nat.eq_or_lt_of_le hij with heq | hlt
        · rw [heq]
        · exact absurd hc (hmin i (Nat.le_refl _) hlt)
      · rw [if_neg hc]
        have hij' : i + 1 ≤ j := by
          rcases Nat.eq_or_lt_of_le hij with heq | hlt
          · exact absurd (heq ▸ hcond) hc
          · omega
        exact ih (i + 1) (by omega) hij'
          (fun i' h1 h2 => hmin i' (by omega) h2)

theorem scanEq_found (buf : Bytes) (amt i j : Nat) (hij : i ≤ j) (hj : j < amt)
    (hmin : ∀ i', i ≤ i' → i' < j →
      ¬(buf.getD i' 0 = 61 ∧ buf.getD (i' - 1) 0 = 64 ∧
        buf.getD (i' - 2) 0 = 60))
    (hcond : buf.getD j 0 = 61 ∧ buf.getD (j - 1) 0 = 64 ∧
      buf.getD (j - 2) 0 = 60) :
    scanEq buf amt i = j - 2 :=
  scanEqGo_found buf amt j hj hcond (amt - i) i (Nat.le_refl _) hij hmin

theorem scanEqGo_none (buf : Bytes) (amt : Nat)
    (hmin : ∀ i', i0 ≤ i' → i' < amt →
      ¬(buf.getD i' 0 = 61 ∧ buf.getD (i' - 1) 0 = 64 ∧
        buf.getD (i' - 2) 0 = 60)) :
    ∀ fuel i, i0 ≤ i → amt - i ≤ fuel → scanEqGo buf amt fuel i = amt := by
  intro fuel
  induction fuel with
  | zero => intro i hi0 hf; unfold scanEqGo; rfl
  | succ f ih =>
      intro i hi0 hf
      unfold scanEqGo
      by_cases hlt : i < amt
      · rw [if_pos hlt, if_neg (hmin i hi0 hlt)]
        exact ih (i + 1) (by omega) (by omega)
      · rw [if_neg hlt]

theorem scanEq_none (buf : Bytes) (amt i : Nat)
    (hmin : ∀ i', i ≤ i' → i' < amt →
      ¬(buf.getD i' 0 = 61 ∧ buf.getD (i' - 1) 0 = 64 ∧
        buf.getD (i' - 2) 0 = 60)) :
    scanEq buf amt i = amt :=
  scanEqGo_none buf amt hmin (amt - i) i (Nat.le_refl _) (Nat.le_refl _)

theorem findGtGo_found (buf : Bytes) (hi j : Nat) (hj : j < hi)
    (hcond : buf.getD j 0 = 62) :
    ∀ fuel i, hi - i ≤ fuel → i ≤ j →
    (∀ i', i ≤ i' → i' < j → ¬(buf.getD i' 0 = 62)) →
    findGtGo buf hi fuel i = some j := by
  intro fuel
  induction fuel with
  | zero => intro i hf hij hmin; omega
  | succ f ih =>
      intro i hf hij hmin
      unfold findGtGo
      rw [if_pos (by omega)]
      by_cases hc : buf.getD i 0 = 62
      · rw [if_pos hc]
        rcases Nat.eq_or_lt_of_le hij with heq | hlt
        · rw [heq]
        · exact absurd hc (hmin i (Nat.le_refl _) hlt)
      · rw [if_neg hc]
        have hij' : i + 1 ≤ j := by
          rcases Nat.eq_or_lt_of_le hij with heq | hlt
          · exact absurd (heq ▸ hcond) hc
          · omega
        exact ih (i + 1) (by omega) hij'
          (fun i' h1 h2 => hmin i' (by omega) h2)

theorem findGt_found (buf : Bytes) (hi i j : Nat) (hij : i ≤ j) (hj : j < hi)
    (hmin : ∀ i', i ≤ i' → i' < j → ¬(buf.getD i' 0 = 62))
    (hcond : buf.getD j 0 = 62) :
    findGt buf hi i = some j :=
  findGtGo_found buf hi j hj hcond (hi - i) i (Nat.le_refl _) hij hmin

/-! ### The hexadecimal length lines round-trip through the unchunker -/

theorem hexDigitVal_hexDigitByte (d : Nat) (h : d < 16) :
    hexDigitVal (hexDigitByte d) = some d := by
  unfold hexDigitVal hexDigitByte
  by_cases h10 : d < 10
  · rw [if_pos h10, if_pos (by omega)]
    congr 1
    omega
  · rw [if_neg h10, if_neg (by omega), if_pos (by omega)]
    congr 1
    omega

theorem readHexAux_cons (b : Nat) (rest : Bytes) (acc k : Nat) :
    readHexAux (b :: rest) acc k =
      match hexDigitVal b with
      | some d => readHexAux rest (acc * 16 + d) (k + 1)
      | none =>
          if b = 13 then
            match rest with
            | 10 :: rest2 => if k > 0 then some (acc, rest2) else none
            | _ => none
          else none := rfl

theorem readHexAux_crlf (t : Bytes) (acc k : Nat) :
    readHexAux (13 :: 10 :: t) acc k = if k > 0 then some (acc, t) else none :=
  rfl

theorem readHexAux_digits (l : Bytes)
    (hl : ∀ b ∈ l, (hexDigitVal b).isSome) :
    ∀ (rest : Bytes) (acc k : Nat),
    readHexAux (l ++ rest) acc k =
      readHexAux rest
        (l.foldl (fun a b => a * 16 + (hexDigitVal b).getD 0) acc)
        (k + l.length) := by
  induction l with
  | nil => intro rest acc k; simp
  | cons b l ih =>
      intro rest acc k
      obtain ⟨d, hd⟩ := Option.isSome_iff_exists.mp (hl b (by simp))
      rw [List.cons_append, readHexAux_cons, hd]
      show readHexAux (l ++ rest) (acc * 16 + d) (k + 1) = _
      rw [ih (fun b hb => hl b (by simp [hb])) rest (acc * 16 + d) (k + 1)]
      simp only [List.foldl_cons, hd, Option.getD_some, List.length_cons]
      congr 1
      omega

theorem hexRepGo_spec : ∀ fuel n, n ≤ fuel →
    ((∀ b ∈ hexRepGo fuel n, (hexDigitVal b).isSome) ∧
     ∀ acc, (hexRepGo fuel n).foldl
        (fun a b => a * 16 + (hexDigitVal b).getD 0) acc =
      acc * 16 ^ (hexRepGo fuel n).length + n) := by
  intro fuel
  induction fuel with
  | zero =>
      intro n hn
      have : n = 0 := by omega
      subst this
      exact ⟨by simp [hexRepGo], by simp [hexRepGo]⟩
  | succ f ih =>
      intro n hn
      match n with
      | 0 => exact ⟨by simp [hexRepGo], by simp [hexRepGo]⟩
      | m + 1 =>
          have hdiv : (m + 1) / 16 < m + 1 :=
            Nat.div_lt_self (Nat.succ_pos m) (show 1 < 16 by omega)
          have hrec := ih ((m + 1) / 16) (by omega)
          have hdef : hexRepGo (f + 1) (m + 1) =
              hexRepGo f ((m + 1) / 16) ++ [hexDigitByte ((m + 1) % 16)] := rfl
          constructor
          · intro b hb
            rw [hdef] at hb
            rcases List.mem_append.mp hb with hb | hb
            · exact hrec.1 b hb
            · simp only [List.mem_singleton] at hb
              subst hb
              rw [hexDigitVal_hexDigitByte _ (Nat.mod_lt _ (by omega))]
              rfl
          · intro acc
            rw [hdef, List.foldl_append, hrec.2 acc]
            simp only [List.foldl_cons, List.foldl_nil]
            rw [hexDigitVal_hexDigitByte _ (Nat.mod_lt _ (by omega))]
            simp only [Option.getD_some, List.length_append,
              List.length_singleton]
            rw [pow_succ]
            calc (acc * 16 ^ (hexRepGo f ((m + 1) / 16)).length +
                  (m + 1) / 16) * 16 + (m + 1) % 16
                = acc * (16 ^ (hexRepGo f ((m + 1) / 16)).length * 16) +
                  ((m + 1) / 16 * 16 + (m + 1) % 16) := by ring
              _ = acc * (16 ^ (hexRepGo f ((m + 1) / 16)).length * 16) +
                  (m + 1) := by
                    have hmod := Nat.div_add_mod (m + 1) 16
                    omega

theorem hexRepGo_ne_nil (fuel n : Nat) (hf : 1 ≤ fuel) (hn : 1 ≤ n) :
    hexRepGo fuel n ≠ [] := by
  match fuel, n with
  | f + 1, m + 1 => simp [hexRepGo]

theorem hexUpper_ne_nil (n : Nat) : hexUpper n ≠ [] := by
  unfold hexUpper
  by_cases h : n = 0
  · simp [h]
  · rw [if_neg h]
    exact hexRepGo_ne_nil n n (by omega) (by omega)

theorem readHexAux_hexUpper (n : Nat) (t : Bytes) :
    readHexAux (hexUpper n ++ (13 :: 10 :: t)) 0 0 = some (n, t) := by
  by_cases h : n = 0
  · subst h
    rfl
  · unfold hexUpper
    rw [if_neg h]
    have hspec := hexRepGo_spec n n (Nat.le_refl _)
    rw [readHexAux_digits _ hspec.1 _ 0 0]
    rw [readHexAux_crlf]
    have hne := hexRepGo_ne_nil n n (by omega) (by omega)
    have hlen : 0 < (hexRepGo n n).length := List.length_pos.mpr hne
    rw [if_pos (by omega), hspec.2 0]
    simp

/-! ### The unchunker on well-formed chunk streams -/

theorem unchunk_succ (fuel : Nat) (s : Bytes) :
    unchunk (fuel + 1) s =
      match readHexAux s 0 0 with
      | none => none
      | some (n, rest) =>
          if n = 0 then (if rest = CRLF then some [] else none)
          else if rest.length < n + 2 then none
          else
            match rest.drop n with
            | 13 :: 10 :: rest3 =>
                (unchunk fuel rest3).map (fun tail => rest.take n ++ tail)
            | _ => none := rfl

theorem unchunk_terminal (fuel : Nat) :
    unchunk (fuel + 1) terminalChunk = some [] := rfl

theorem unchunk_cons (d rest : Bytes) (fuel : Nat) (hd : d ≠ []) :
    unchunk (fuel + 1) (hexUpper d.length ++ CRLF ++ d ++ CRLF ++ rest) =
      (unchunk fuel rest).map (fun tail => d ++ tail) := by
  have hshape : hexUpper d.length ++ CRLF ++ d ++ CRLF ++ rest =
      hexUpper d.length ++ (13 :: 10 :: (d ++ 13 :: 10 :: rest)) := by
    simp [CRLF]
  rw [hshape, unchunk_succ, readHexAux_hexUpper]
  show (if d.length = 0 then
        (if d ++ 13 :: 10 :: rest = CRLF then some [] else none)
      else if (d ++ 13 :: 10 :: rest).length < d.length + 2 then none
      else
        match (d ++ 13 :: 10 :: rest).drop d.length with
        | 13 :: 10 :: rest3 =>
            (unchunk fuel rest3).map (fun tail =>
              (d ++ 13 :: 10 :: rest).take d.length ++ tail)
        | _ => none) =
    (unchunk fuel rest).map (fun tail => d ++ tail)
  rw [if_neg (fun hh => hd (List.length_eq_zero.mp hh))]
  rw [if_neg (by simp only [List.length_append, List.length_cons]; omega)]
  rw [List.drop_left]
  show (unchunk fuel rest).map (fun tail =>
      (d ++ 13 :: 10 :: rest).take d.length ++ tail) =
    (unchunk fuel rest).map (fun tail => d ++ tail)
  simp only [List.take_left]

theorem unchunk_mono_stream : ∀ (cs : List Bytes) (fuel : Nat),
    cs.length + 1 ≤ fuel →
    unchunk fuel ((cs.map chunkEnc).flatten ++ terminalChunk) =
      some cs.flatten := by
  intro cs
  induction cs with
  | nil =>
      intro fuel hf
      match fuel, hf with
      | f + 1, _ => simp [unchunk_terminal]
  | cons c cs ih =>
      intro fuel hf
      match fuel, hf with
      | f + 1, hf =>
        by_cases hc : c = []
        · subst hc
          show unchunk (f + 1) ((chunkEnc [] ++ _) ++ _) = _
          rw [show chunkEnc [] = [] from rfl, List.nil_append]
          rw [ih (f + 1) (by simp only [List.length_cons] at hf; omega)]
          simp
        · show unchunk (f + 1) ((chunkEnc c ++ _) ++ _) = _
          rw [show chunkEnc c = hexUpper c.length ++ CRLF ++ c ++ CRLF from
            if_neg hc]
          rw [show (hexUpper c.length ++ CRLF ++ c ++ CRLF ++
              (List.map chunkEnc cs).flatten) ++ terminalChunk =
            hexUpper c.length ++ CRLF ++ c ++ CRLF ++
              ((List.map chunkEnc cs).flatten ++ terminalChunk) by
            simp [List.append_assoc]]
          rw [unchunk_cons c _ f hc]
          rw [ih f (by simp only [List.length_cons] at hf; omega)]
          simp

/-! ### Chained sub-responses inside a template -/

theorem complete_chained_eq (r : RustletResponse) (c : Conn)
    (hch : r.chained = true) (hk : r.keep_alive = true)
    (hic : r.is_complete = false) :
    r.complete c =
      ({ r with headers_written := true, buffer := [] },
       { events := c.events ++ [WhEvent.write (chunkEnc r.buffer)],
         callback_state := some State.headersChunked }) := by
  unfold RustletResponse.complete
  simp [hch, flush_eq, flushData, hic, hk]

theorem execute_chained (reg : Registry) (config : HttpConfig) (name : Bytes)
    (uri query : String) (content : Bytes) (headers : List (String × String))
    (w : List Bytes) (id : Nat) (c : Conn) (h : reg name = some w) :
    ∃ out,
      execute_rustlet reg config name uri query content headers true true id c =
        Except.ok (out,
          { events := c.events ++ [WhEvent.write (chunkEnc w.flatten)],
            callback_state := some State.headersChunked }) := by
  unfold execute_rustlet
  rw [h]
  by_cases hcid : derivedSessionId
      (RustletRequest.new uri query content headers true) id = id
  · simp only [if_pos hcid, RustletResponse.set_cookie, RustletResponse.new]
    rw [runRustlet_eq]
    rw [complete_chained_eq _ _ rfl rfl rfl]
    exact ⟨_, rfl⟩
  · simp only [if_neg hcid, RustletResponse.new]
    rw [runRustlet_eq]
    rw [complete_chained_eq _ _ rfl rfl rfl]
    exact ⟨_, rfl⟩

/-! ### The inner loop of process_rsp on a rendered template -/

theorem getD_cons3 (a b c : Nat) (l : Bytes) (k : Nat) :
    (a :: b :: c :: l).getD (k + 3) 0 = l.getD k 0 := rfl

theorem drop_cons3 (a b c : Nat) (l : Bytes) (k : Nat) :
    (a :: b :: c :: l).drop (k + 3) = l.drop k := rfl

theorem getD_mem (l : Bytes) (k : Nat) (hk : k < l.length) : l.getD k 0 ∈ l := by
  rw [List.getD_eq_getElem _ _ hk]
  exact List.getElem_mem hk

theorem render_ne_nil (segs : List (Bytes × Bytes × List Bytes)) (F : Bytes)
    (hF : F ≠ []) : render segs F ≠ [] := by
  cases segs with
  | nil => exact hF
  | cons x rest =>
      obtain ⟨s, n, w⟩ := x
      simp [render, escSeq]

theorem writeSegment_final (buf : Bytes) (flen start endPos : Nat) (c : Conn)
    (hfe : flen ≤ endPos) :
    writeSegment true buf flen start endPos c =
      { c with events := c.events ++
          [WhEvent.write (hexUpper (endPos - start) ++ CRLF),
           WhEvent.write ((buf.drop start).take (endPos - start)),
           WhEvent.write (strBytes "\r\n0\r\n\r\n")] } := by
  unfold writeSegment
  simp [hfe, whWrite]

theorem writeSegment_mid (buf : Bytes) (flen start endPos : Nat) (c : Conn)
    (hfe : ¬(flen ≤ endPos)) :
    writeSegment true buf flen start endPos c =
      { c with events := c.events ++
          [WhEvent.write (hexUpper (endPos - start) ++ CRLF),
           WhEvent.write ((buf.drop start).take (endPos - start)),
           WhEvent.write CRLF] } := by
  unfold writeSegment
  simp [hfe, whWrite]

theorem rspLoop_succ (reg : Registry) (config : HttpConfig) (uri query : String)
    (content : Bytes) (headers : List (String × String)) (keep_alive : Bool)
    (buf : Bytes) (flen amt fuel start : Nat) (c : Conn) :
    rspLoop reg config uri query content headers keep_alive buf flen amt
        (fuel + 1) start c =
      (if scanEq buf amt (start + 2) = amt then
        Except.ok (writeSegment keep_alive buf flen start
          (scanEq buf amt (start + 2)) c)
      else
        match findGt buf (amt - 1) (scanEq buf amt (start + 2) + 3) with
        | some i =>
            match execute_rustlet reg config
                ((buf.drop (scanEq buf amt (start + 2) + 3)).take
                  (i - (scanEq buf amt (start + 2) + 3)))
                uri query content headers keep_alive true 0
                (writeSegment keep_alive buf flen start
                  (scanEq buf amt (start + 2)) c) with
            | Except.ok (_, c) =>
                rspLoop reg config uri query content headers keep_alive buf
                  flen amt fuel (i + 1) c
            | Except.error e => Except.error e
        | none =>
            if start < scanEq buf amt (start + 2) then
              Except.error (RError.invalidRSPError
                "non-terminated escape sequence in RSP")
            else Except.error (RError.internalError
              "process_rsp diverges on an unterminated escape at segment start")) :=
  rfl

theorem rspLoop_step (reg : Registry) (config : HttpConfig) (uri query : String)
    (content : Bytes) (headers : List (String × String)) (buf : Bytes)
    (flen amt fuel start endPos g : Nat) (c : Conn)
    (hscan : scanEq buf amt (start + 2) = endPos) (hne : ¬(endPos = amt))
    (hfind : findGt buf (amt - 1) (endPos + 3) = some g)
    (out : ExecOut) (c2 : Conn)
    (hexec : execute_rustlet reg config
        ((buf.drop (endPos + 3)).take (g - (endPos + 3)))
        uri query content headers true true 0
        (writeSegment true buf flen start endPos c) = Except.ok (out, c2)) :
    rspLoop reg config uri query content headers true buf flen amt
        (fuel + 1) start c =
      rspLoop reg config uri query content headers true buf flen amt
        fuel (g + 1) c2 := by
  rw [rspLoop_succ, hscan, if_neg hne]
  split
  · next i heq =>
      rw [hfind] at heq
      injection heq with heq
      subst heq
      split
      · next x cb heq2 =>
          rw [hexec] at heq2
          injection heq2 with heq2
          cases heq2
          rfl
      · next e heq2 =>
          rw [hexec] at heq2
          cases heq2
  · next heq =>
      rw [hfind] at heq
      cases heq

theorem rspLoop_render (reg : Registry) (config : HttpConfig) (uri query : String)
    (content : Bytes) (headers : List (String × String)) :
    ∀ (segs : List (Bytes × Bytes × List Bytes)) (F : Bytes) (fuel start : Nat)
      (c : Conn) (buf : Bytes),
      buf.drop start = render segs F →
      start ≤ buf.length →
      (∀ x ∈ segs, segOK reg x) →
      F ≠ [] → escFree F →
      segs.length + 1 ≤ fuel →
      ∃ cs, rspLoop reg config uri query content headers true buf
          buf.length buf.length fuel start c =
        Except.ok ⟨c.events ++ segEvents segs F, cs⟩ := by
  intro segs
  induction segs with
  | nil =>
      intro F fuel start c buf hdrop hstart hok hF heF hfuel
      simp only [render] at hdrop
      have hlen : buf.length - start = F.length := by
        have hcong := congrArg List.length hdrop
        simpa [List.length_drop] using hcong
      have hFpos : 0 < F.length := List.length_pos.mpr hF
      have hscan : scanEq buf buf.length (start + 2) = buf.length := by
        apply scanEq_none
        intro i' h1 h2 hcond
        obtain ⟨j, rfl⟩ : ∃ j, i' = start + j := ⟨i' - start, by omega⟩
        have hj2 : 2 ≤ j := by omega
        have hjlt : j < F.length := by omega
        have e1 : buf.getD (start + j) 0 = F.getD j 0 := by
          rw [← getD_drop, hdrop]
        have e2 : buf.getD (start + j - 1) 0 = F.getD (j - 1) 0 := by
          rw [show start + j - 1 = start + (j - 1) from by omega, ← getD_drop,
            hdrop]
        have e3 : buf.getD (start + j - 2) 0 = F.getD (j - 2) 0 := by
          rw [show start + j - 2 = start + (j - 2) from by omega, ← getD_drop,
            hdrop]
        rw [e1, e2, e3] at hcond
        refine heF (j - 2) (by omega) ?_
        rw [show j - 2 + 2 = j from by omega, show j - 2 + 1 = j - 1 from by omega]
        exact hcond
      match fuel, hfuel with
      | f + 1, _ =>
        refine ⟨c.callback_state, ?_⟩
        rw [rspLoop_succ, hscan, if_pos rfl,
          writeSegment_final _ _ _ _ _ (Nat.le_refl _)]
        rw [hdrop, hlen, List.take_length]
        simp [segEvents]
  | cons sx rest ih =>
      obtain ⟨s, n, w⟩ := sx
      intro F fuel start c buf hdrop hstart hok hF heF hfuel
      have hsok : s ≠ [] ∧ escFree s ∧ (∀ b ∈ n, b ≠ 62) ∧ reg n = some w :=
        hok (s, n, w) (by simp)
      obtain ⟨hs_ne, hs_esc, hn_gt, hreg⟩ := hsok
      have hdrop' : buf.drop start =
          s ++ (60 :: 64 :: 61 :: (n ++ 62 :: render rest F)) := by
        rw [hdrop]
        simp [render, escSeq]
      have hRne : render rest F ≠ [] := render_ne_nil rest F hF
      have hRpos : 0 < (render rest F).length := List.length_pos.mpr hRne
      have hlen : buf.length =
          start + (s.length + 4 + n.length + (render rest F).length) := by
        have hcong := congrArg List.length hdrop'
        simp only [List.length_drop, List.length_append, List.length_cons] at hcong
        omega
      have hidx : ∀ j, buf.getD (start + j) 0 =
          (s ++ (60 :: 64 :: 61 :: (n ++ 62 :: render rest F))).getD j 0 := by
        intro j
        rw [← getD_drop, hdrop']
      have hscan : scanEq buf buf.length (start + 2) = start + s.length := by
        have hfound := scanEq_found buf buf.length (start + 2)
          (start + (s.length + 2)) (by omega) (by omega) ?_ ?_
        · rw [show start + (s.length + 2) - 2 = start + s.length from by omega]
            at hfound
          exact hfound
        · intro i' h1 h2 hcond
          obtain ⟨j, rfl⟩ : ∃ j, i' = start + j := ⟨i' - start, by omega⟩
          have hj2 : 2 ≤ j := by omega
          have hjlt : j < s.length + 2 := by omega
          have e1 := hidx j
          have e2 : buf.getD (start + j - 1) 0 =
              (s ++ (60 :: 64 :: 61 :: (n ++ 62 :: render rest F))).getD (j - 1)
                0 := by
            rw [show start + j - 1 = start + (j - 1) from by omega]
            exact hidx (j - 1)
          have e3 : buf.getD (start + j - 2) 0 =
              (s ++ (60 :: 64 :: 61 :: (n ++ 62 :: render rest F))).getD (j - 2)
                0 := by
            rw [show start + j - 2 = start + (j - 2) from by omega]
            exact hidx (j - 2)
          rw [e1, e2, e3] at hcond
          by_cases hjs : j < s.length
          · rw [List.getD_append _ _ _ _ hjs,
              List.getD_append _ _ _ _ (by omega : j - 1 < s.length),
              List.getD_append _ _ _ _ (by omega : j - 2 < s.length)] at hcond
            refine hs_esc (j - 2) (by omega) ?_
            rw [show j - 2 + 2 = j from by omega,
              show j - 2 + 1 = j - 1 from by omega]
            exact hcond
          · rcases (by omega : j = s.length ∨ j = s.length + 1) with rfl | hj1
            · rw [List.getD_append_right _ _ _ _ (by omega : s.length ≤ s.length),
                Nat.sub_self] at hcond
              simp at hcond
            · subst hj1
              rw [List.getD_append_right _ _ _ _
                (by omega : s.length ≤ s.length + 1),
                show s.length + 1 - s.length = 1 from by omega] at hcond
              simp at hcond
        · refine ⟨?_, ?_, ?_⟩
          · rw [hidx (s.length + 2),
              List.getD_append_right _ _ _ _ (by omega : s.length ≤ s.length + 2),
              show s.length + 2 - s.length = 2 from by omega]
            rfl
          · rw [show start + (s.length + 2) - 1 = start + (s.length + 1) from
              by omega, hidx (s.length + 1),
              List.getD_append_right _ _ _ _ (by omega : s.length ≤ s.length + 1),
              show s.length + 1 - s.length = 1 from by omega]
            rfl
          · rw [show start + (s.length + 2) - 2 = start + s.length from by omega,
              hidx s.length,
              List.getD_append_right _ _ _ _ (Nat.le_refl _), Nat.sub_self]
            rfl
      have hne_amt : ¬(start + s.length = buf.length) := by omega
      have hgt : findGt buf (buf.length - 1) (start + s.length + 3) =
          some (start + (s.length + 3 + n.length)) := by
        apply findGt_found
        · omega
        · omega
        · intro i' h1 h2 hcond
          obtain ⟨j, rfl⟩ : ∃ j, i' = start + j := ⟨i' - start, by omega⟩
          rw [hidx j,
            List.getD_append_right _ _ _ _ (by omega : s.length ≤ j),
            show j - s.length = (j - s.length - 3) + 3 from by omega,
            getD_cons3,
            List.getD_append _ _ _ _ (by omega : j - s.length - 3 < n.length)]
            at hcond
          exact hn_gt _ (getD_mem n _ (by omega)) hcond
        · rw [hidx (s.length + 3 + n.length),
            List.getD_append_right _ _ _ _
              (by omega : s.length ≤ s.length + 3 + n.length),
            show s.length + 3 + n.length - s.length = n.length + 3 from by omega,
            getD_cons3,
            List.getD_append_right _ _ _ _ (Nat.le_refl _), Nat.sub_self]
          rfl
      have hname : (buf.drop (start + s.length + 3)).take
          (start + (s.length + 3 + n.length) - (start + s.length + 3)) = n := by
        rw [show start + (s.length + 3 + n.length) - (start + s.length + 3) =
          n.length from by omega]
        have hd2 : buf.drop (start + s.length + 3) =
            (buf.drop start).drop (s.length + 3) := by
          rw [List.drop_drop]
          rfl
        rw [hd2, hdrop', List.drop_append_eq_append_drop,
          List.drop_of_length_le (by omega : s.length ≤ s.length + 3),
          show s.length + 3 - s.length = 0 + 3 from by omega, drop_cons3]
        simp only [List.nil_append, List.drop_zero]
        exact List.take_left' rfl
      have hdropR : buf.drop (start + (s.length + 3 + n.length) + 1) =
          render rest F := by
        have hd2 : buf.drop (start + (s.length + 3 + n.length) + 1) =
            (buf.drop start).drop (s.length + 4 + n.length) := by
          rw [List.drop_drop]
          congr 1
          omega
        rw [hd2, hdrop', List.drop_append_eq_append_drop,
          List.drop_of_length_le (by omega : s.length ≤ s.length + 4 + n.length),
          show s.length + 4 + n.length - s.length = (n.length + 1) + 3 from
            by omega, drop_cons3]
        simp only [List.nil_append]
        rw [List.drop_append_eq_append_drop,
          List.drop_of_length_le (by omega : n.length ≤ n.length + 1),
          show n.length + 1 - n.length = 1 from by omega]
        simp
      obtain ⟨out, hexec⟩ := execute_chained reg config n uri query content
        headers w 0 (writeSegment true buf buf.length start (start + s.length) c)
        hreg
      rw [← hname] at hexec
      match fuel, hfuel with
      | f + 1, hfuel =>
        obtain ⟨cs, hrec⟩ := ih F f (start + (s.length + 3 + n.length) + 1) _ buf
          hdropR (by omega) (fun x hx => hok x (by simp [hx])) hF heF
          (by simp only [List.length_cons] at hfuel; omega)
        refine ⟨cs, ?_⟩
        rw [rspLoop_step reg config uri query content headers buf buf.length
          buf.length f start (start + s.length) (start + (s.length + 3 + n.length))
          c hscan hne_amt hgt out _ hexec]
        rw [hrec]
        have hws : writeSegment true buf buf.length start (start + s.length) c =
            { c with events := c.events ++
                [WhEvent.write (hexUpper s.length ++ CRLF), WhEvent.write s,
                 WhEvent.write CRLF] } := by
          rw [writeSegment_mid _ _ _ _ _ (by omega),
            show start + s.length - start = s.length from by omega,
            hdrop', List.take_left' rfl]
        rw [hws]
        simp [segEvents, List.append_assoc]

/-! ### Claim C5: template composition -/

theorem strBytes_closing : strBytes "\r\n0\r\n\r\n" = CRLF ++ terminalChunk := rfl

/-- C5 counterexample: the template A(escape x)B(escape y) with an empty
final segment — allowed by the claim, which admits any segments including
empty ones — is rejected with the invalid-RSP error, because the scan for
the closing bracket excludes the last buffer position, so no body is
produced at all. -/
theorem claim_C5_cx :
    rspError (process_rsp sampleRegistry emptyConfig "" "" [] [] true
        (strBytes "A<@=x>B<@=y>") Conn.empty)
      = some (RError.invalidRSPError "non-terminated escape sequence in RSP") := by
  decide

/-- C5 amended: for a template S0 (escape A) S1 (escape B) S2 within the
10 MiB cap whose registered handler names contain no closing bracket and
whose static segments are non-empty and escape-free, serving the file in
keep-alive mode succeeds and the body, after unchunking, is S0, then the
concatenation of the writes of A, then S1, then the writes of B, then S2.
The non-emptiness is forced by the counterexample: an empty final segment
aborts with invalid-RSP, and an empty earlier segment emits a zero-length
chunk that terminates a chunked body prematurely. -/
theorem claim_C5 (reg : Registry) (config : HttpConfig) (uri query : String)
    (content : Bytes) (headers : List (String × String))
    (S0 S1 S2 nA nB : Bytes) (wA wB : List Bytes)
    (hA : reg nA = some wA) (hB : reg nB = some wB)
    (h0 : S0 ≠ []) (h1 : S1 ≠ []) (h2 : S2 ≠ [])
    (e0 : escFree S0) (e1 : escFree S1) (e2 : escFree S2)
    (gA : ∀ b ∈ nA, b ≠ 62) (gB : ∀ b ∈ nB, b ≠ 62)
    (hcap : (S0 ++ escSeq nA ++ S1 ++ escSeq nB ++ S2).length ≤ MAX_CHUNK_SIZE) :
    ∃ c', process_rsp reg config uri query content headers true
        (S0 ++ escSeq nA ++ S1 ++ escSeq nB ++ S2) Conn.empty = Except.ok c' ∧
      unchunk (wireBody c').length (wireBody c') =
        some (S0 ++ wA.flatten ++ S1 ++ wB.flatten ++ S2) := by
  have hflen : (S0 ++ escSeq nA ++ S1 ++ escSeq nB ++ S2).length =
      S0.length + (nA.length + 4) + S1.length + (nB.length + 4) + S2.length := by
    simp [escSeq]
    omega
  have h0p : 0 < S0.length := List.length_pos.mpr h0
  have h1p : 0 < S1.length := List.length_pos.mpr h1
  have h2p : 0 < S2.length := List.length_pos.mpr h2
  have hentry : process_rsp reg config uri query content headers true
      (S0 ++ escSeq nA ++ S1 ++ escSeq nB ++ S2) Conn.empty =
    rspLoop reg config uri query content headers true
      (S0 ++ escSeq nA ++ S1 ++ escSeq nB ++ S2)
      (S0 ++ escSeq nA ++ S1 ++ escSeq nB ++ S2).length
      (S0 ++ escSeq nA ++ S1 ++ escSeq nB ++ S2).length
      ((S0 ++ escSeq nA ++ S1 ++ escSeq nB ++ S2).length + 1) 0
      ⟨[WhEvent.write (config.build_headers true [] none)],
        some State.headersChunked⟩ := by
    unfold process_rsp
    rw [if_neg (by omega)]
    rfl
  obtain ⟨cs, hloop⟩ := rspLoop_render reg config uri query content headers
    [(S0, nA, wA), (S1, nB, wB)] S2
    ((S0 ++ escSeq nA ++ S1 ++ escSeq nB ++ S2).length + 1) 0
    ⟨[WhEvent.write (config.build_headers true [] none)],
      some State.headersChunked⟩
    (S0 ++ escSeq nA ++ S1 ++ escSeq nB ++ S2)
    (by simp [render]) (Nat.zero_le _)
    (by
      intro x hx
      simp only [List.mem_cons, List.mem_singleton] at hx
      rcases hx with rfl | rfl | hx
      · exact ⟨h0, e0, gA, hA⟩
      · exact ⟨h1, e1, gB, hB⟩
      · exact absurd hx (List.not_mem_nil x))
    h2 e2 (by simp; omega)
  refine ⟨_, hentry.trans hloop, ?_⟩
  have hbody : wireBody
      ⟨[WhEvent.write (config.build_headers true [] none)] ++
        segEvents [(S0, nA, wA), (S1, nB, wB)] S2, cs⟩ =
      (List.map chunkEnc [S0, wA.flatten, S1, wB.flatten, S2]).flatten ++
        terminalChunk := by
    show wireOf (segEvents [(S0, nA, wA), (S1, nB, wB)] S2) = _
    simp only [segEvents, wireOf, List.map_append, List.map_cons, List.map_nil,
      List.flatten, strBytes_closing]
    rw [show chunkEnc S0 = hexUpper S0.length ++ CRLF ++ S0 ++ CRLF from
      if_neg h0]
    rw [show chunkEnc S1 = hexUpper S1.length ++ CRLF ++ S1 ++ CRLF from
      if_neg h1]
    rw [show chunkEnc S2 = hexUpper S2.length ++ CRLF ++ S2 ++ CRLF from
      if_neg h2]
    simp [List.append_assoc]
  rw [hbody]
  have hblen : 6 ≤ ((List.map chunkEnc [S0, wA.flatten, S1, wB.flatten, S2]).flatten ++
      terminalChunk).length := by
    have hc0 : 0 < (chunkEnc S0).length := by
      rw [show chunkEnc S0 = hexUpper S0.length ++ CRLF ++ S0 ++ CRLF from
        if_neg h0]
      simp [CRLF]
    simp only [List.map_cons, List.map_nil, List.flatten, List.length_append]
    have : terminalChunk.length = 5 := rfl
    omega
  rw [unchunk_mono_stream [S0, wA.flatten, S1, wB.flatten, S2] _ hblen]
  simp [List.flatten, List.append_assoc]

/-- C5 witness: the amended theorem applied to the template
A(escape x)B(escape y)C with the sample registry, whose rustlets x and y
write the digits 1 and 2. -/
theorem claim_C5_witness :
    ∃ c', process_rsp sampleRegistry sampleConfig "" "" [] [] true
        ([65] ++ escSeq [120] ++ [66] ++ escSeq [121] ++ [67]) Conn.empty =
      Except.ok c' ∧
      unchunk (wireBody c').length (wireBody c') =
        some ([65] ++ [[49]].flatten ++ [66] ++ [[50]].flatten ++ [67]) :=
  claim_C5 sampleRegistry sampleConfig "" "" [] [] [65] [66] [67] [120] [121]
    [[49]] [[50]] (by decide) (by decide) (by decide) (by decide) (by decide)
    (by decide) (by decide) (by decide) (by decide) (by decide) (by decide)

end Rustlet
